import Mathlib

set_option maxRecDepth 4000

/-!
Verification development for the Analytical-Intelligence monitoring backend.

The Python sources under services/backend/app are shallowly embedded:
pure helpers become Lean functions over String / List / Rat, the stateful
SSH tracker and the notification bus become explicit state-passing
functions, database tables become lists of records, and fallible
capabilities (feature mapper, classifiers) become Except-valued
parameters.  Floating point numbers are modelled by rationals.
-/

/-- Python str.lower (ASCII case folding, as used on the label strings here). -/
def pyLower (s : String) : String := String.mk (s.data.map Char.toLower)

/-- Python str.upper (ASCII case folding). -/
def pyUpper (s : String) : String := String.mk (s.data.map Char.toUpper)

/-- Python substring test needle in hay, embedded as a list-infix test. -/
def containsSub (hay needle : String) : Bool := decide (needle.data <:+: hay.data)

/- ==================================================================
   detectors/severity.py
   ================================================================== -/

/-- Severity level constant from severity.py. -/
def CRITICAL : String := "CRITICAL"

/-- Severity level constant from severity.py. -/
def HIGH : String := "HIGH"

/-- Severity level constant from severity.py. -/
def MEDIUM : String := "MEDIUM"

/-- Severity level constant from severity.py. -/
def LOW : String := "LOW"

/-- Embedding of severity.get_network_ml_severity: severity for network
ML detections, decided by case-insensitive substring tests on the label
and score bands.  Scores are rationals standing for the Python floats. -/
def get_network_ml_severity (label : String) (score : ℚ) : String :=
  if containsSub (pyLower label) "ddos" then CRITICAL
  else if containsSub (pyLower label) "dos" then
    (if (9 : ℚ)/10 ≤ score then CRITICAL else HIGH)
  else if containsSub (pyLower label) "patator" || containsSub (pyLower label) "brute" then
    HIGH
  else if containsSub (pyLower label) "scan" || containsSub (pyLower label) "portscan" then
    MEDIUM
  else if containsSub (pyLower label) "bot" then MEDIUM
  else if (95 : ℚ)/100 ≤ score then HIGH
  else if (8 : ℚ)/10 ≤ score then MEDIUM
  else LOW

/-- Embedding of severity.get_ssh_severity: severity for SSH LSTM
detections from the failed count, the model-anomaly flag and the model
score. -/
def get_ssh_severity (failed_count : ℕ) (is_model_anomaly : Bool) (score : ℚ) : String :=
  if 20 ≤ failed_count then CRITICAL
  else if 10 ≤ failed_count ∨ (is_model_anomaly ∧ (9 : ℚ)/10 ≤ score) then HIGH
  else if 5 ≤ failed_count ∨ is_model_anomaly = true then MEDIUM
  else LOW

/- ==================================================================
   detectors/network_ml_detector.py : label normalization
   ================================================================== -/

/-- Python str.strip on the character list of a string: whitespace is
removed from both ends. -/
def wsStrip (l : List Char) : List Char :=
  ((l.dropWhile Char.isWhitespace).reverse.dropWhile Char.isWhitespace).reverse

/-- The key built by normalize_label: lower-case the stripped label and
remove every space and dash (two single-character str.replace calls). -/
def labelKey (l : List Char) : List Char :=
  ((l.map Char.toLower).filter (fun c => c ≠ ' ')).filter (fun c => c ≠ '-')

/-- The _LABEL_NORMALIZATION_MAP table of network_ml_detector.py, in
source order. -/
def LABEL_NORMALIZATION_MAP : List (String × String) :=
  [("portscan", "Port Scanning"), ("portscans", "Port Scanning"),
   ("port scans", "Port Scanning"),
   ("bruteforce", "Brute Force"), ("brute-force", "Brute Force"),
   ("ddos", "DDoS"), ("dos", "DoS")]

/-- The pattern key computed inside the normalize_label loop: the
pattern with spaces and dashes removed (patterns are already lower
case in the table). -/
def patternKey (p : String) : List Char :=
  ((p.data.filter (fun c => c ≠ ' '))).filter (fun c => c ≠ '-')

/-- The first-match scan over the normalization table. -/
def findCanonical (key : List Char) : List (String × String) → Option String
  | [] => none
  | (pat, canon) :: rest =>
      if patternKey pat = key then some canon else findCanonical key rest

/-- Embedding of network_ml_detector.normalize_label.  The Boolean
mirrors the NETWORK_ML_LABEL_NORMALIZATION flag (default true); the
empty string is the only falsy str, so the Python truthiness tests
become equality tests with "". -/
def normalize_label (normalizationEnabled : Bool) (label : String) : String :=
  if normalizationEnabled = false then
    (if label = "" then "" else String.mk (wsStrip label.data))
  else if label = "" then ""
  else
    let stripped := wsStrip label.data
    match findCanonical (labelKey stripped) LABEL_NORMALIZATION_MAP with
    | some canon => canon
    | none => String.mk stripped

section StripLemmas

/-- Dropping while a predicate holds is idempotent. -/
theorem dropWhile_dropWhile (p : Char → Bool) (l : List Char) :
    (l.dropWhile p).dropWhile p = l.dropWhile p := by
  induction l with
  | nil => simp [List.dropWhile]
  | cons c cs ih =>
      by_cases h : p c
      · simpa [List.dropWhile, h] using ih
      · simp [List.dropWhile, h]

/-- The right-strip half of wsStrip. -/
def stripRight (l : List Char) : List Char :=
  (l.reverse.dropWhile Char.isWhitespace).reverse

theorem wsStrip_eq (l : List Char) :
    wsStrip l = stripRight (l.dropWhile Char.isWhitespace) := rfl

theorem stripRight_stripRight (l : List Char) :
    stripRight (stripRight l) = stripRight l := by
  unfold stripRight
  rw [List.reverse_reverse, dropWhile_dropWhile]

/-- Right-stripping yields a prefix of the original list. -/
theorem stripRight_isPrefix (l : List Char) : stripRight l <+: l := by
  have h : l.reverse.dropWhile Char.isWhitespace <:+ l.reverse :=
    List.dropWhile_suffix _
  have h2 : (l.reverse.dropWhile Char.isWhitespace).reverse <+: l.reverse.reverse :=
    List.reverse_prefix.mpr h
  simpa [stripRight] using h2

/-- A list that survives a left dropWhile unchanged keeps that property
after right-stripping. -/
theorem dropWhile_stripRight (l : List Char)
    (h : l.dropWhile Char.isWhitespace = l) :
    (stripRight l).dropWhile Char.isWhitespace = stripRight l := by
  rcases hsr : stripRight l with _ | ⟨c, cs⟩
  · simp [List.dropWhile]
  · have hpre : c :: cs <+: l := hsr ▸ stripRight_isPrefix l
    rcases hpre with ⟨t, ht⟩
    have hc : Char.isWhitespace c = false := by
      by_contra hcontra
      have hc' : Char.isWhitespace c = true := by
        revert hcontra; cases Char.isWhitespace c <;> simp
      rw [← ht] at h
      simp only [List.cons_append] at h
      rw [List.dropWhile_cons_of_pos hc'] at h
      have hlen := congrArg List.length h
      have hle :=
        (List.dropWhile_suffix (l := cs ++ t) Char.isWhitespace).sublist.length_le
      rw [List.length_cons] at hlen
      omega
    exact List.dropWhile_cons_of_neg (by simp [hc])

/-- Python str.strip is idempotent. -/
theorem wsStrip_idem (l : List Char) : wsStrip (wsStrip l) = wsStrip l := by
  rw [wsStrip_eq l]
  set y := l.dropWhile Char.isWhitespace with hy
  have hyfix : y.dropWhile Char.isWhitespace = y := by
    rw [hy]; exact dropWhile_dropWhile _ l
  unfold wsStrip
  rw [show stripRight y = (y.reverse.dropWhile Char.isWhitespace).reverse from rfl]
  rw [← show stripRight y = (y.reverse.dropWhile Char.isWhitespace).reverse from rfl]
  rw [dropWhile_stripRight y hyfix]
  exact stripRight_stripRight y

end StripLemmas

/-- A canonical label produced by the table scan is one of the table values. -/
theorem findCanonical_mem {key : List Char} {M : List (String × String)} {c : String}
    (h : findCanonical key M = some c) : c ∈ M.map Prod.snd := by
  induction M with
  | nil => simp [findCanonical] at h
  | cons hd tl ih =>
      rcases hd with ⟨pat, canon⟩
      by_cases hp : patternKey pat = key
      · simp only [findCanonical, if_pos hp, Option.some.injEq] at h
        subst h
        simp
      · simp only [findCanonical, if_neg hp] at h
        exact List.mem_cons_of_mem _ (ih h)

/-- Strings rebuilt from their character list are unchanged. -/
theorem mk_data (s : String) : String.mk s.data = s := rfl

/-- Reduction of normalize_label with the flag off. -/
theorem normalize_label_false (s : String) :
    normalize_label false s = if s = "" then "" else String.mk (wsStrip s.data) := rfl

/-- Reduction of normalize_label with the flag on, for non-empty labels. -/
theorem normalize_label_true (s : String) (hs : s ≠ "") :
    normalize_label true s =
      match findCanonical (labelKey (wsStrip s.data)) LABEL_NORMALIZATION_MAP with
      | some canon => canon
      | none => String.mk (wsStrip s.data) := by
  unfold normalize_label
  rw [if_neg (by simp), if_neg hs]

/-- C10: the flow-label normalization is idempotent for every string and
every state of the NETWORK_ML_LABEL_NORMALIZATION flag, and each
canonical output of the table is a fixed point of normalize_label. -/
theorem C10_normalize_label_idempotent (flag : Bool) (s : String) :
    normalize_label flag (normalize_label flag s) = normalize_label flag s ∧
    normalize_label flag "Port Scanning" = "Port Scanning" ∧
    normalize_label flag "Brute Force" = "Brute Force" ∧
    normalize_label flag "DDoS" = "DDoS" ∧
    normalize_label flag "DoS" = "DoS" := by
  refine ⟨?_, ?_, ?_, ?_, ?_⟩
  case refine_2 => cases flag <;> decide
  case refine_3 => cases flag <;> decide
  case refine_4 => cases flag <;> decide
  case refine_5 => cases flag <;> decide
  cases flag with
  | false =>
      by_cases hs : s = ""
      · subst hs; decide
      · rw [normalize_label_false s, if_neg hs]
        by_cases hn : String.mk (wsStrip s.data) = ""
        · rw [normalize_label_false, if_pos hn, hn]
        · rw [normalize_label_false, if_neg hn,
            show (String.mk (wsStrip s.data)).data = wsStrip s.data from rfl,
            wsStrip_idem]
  | true =>
      by_cases hs : s = ""
      · subst hs; decide
      · rw [normalize_label_true s hs]
        rcases hfind : findCanonical (labelKey (wsStrip s.data)) LABEL_NORMALIZATION_MAP
          with _ | canon
        · by_cases hn : String.mk (wsStrip s.data) = ""
          · rw [hn]; decide
          · rw [normalize_label_true _ hn,
              show (String.mk (wsStrip s.data)).data = wsStrip s.data from rfl,
              wsStrip_idem, hfind]
        · show normalize_label true canon = canon
          have hmem := findCanonical_mem hfind
          simp only [LABEL_NORMALIZATION_MAP, List.map_cons, List.map_nil,
            List.mem_cons, List.not_mem_nil, or_false] at hmem
          rcases hmem with h | h | h | h | h | h | h <;> subst h <;> decide

/-- A string containing "ddos" also contains "dos". -/
theorem containsSub_dos_of_ddos {l : String} (h : containsSub l "ddos" = true) :
    containsSub l "dos" = true := by
  unfold containsSub at h ⊢
  rw [decide_eq_true_iff] at h ⊢
  obtain ⟨s, t, hst⟩ := h
  refine ⟨s ++ ['d'], t, ?_⟩
  rw [← hst]
  simp [List.append_assoc]

/-- C4 counterexample: the network severity classifier has no rule for
labels containing "web"; the label "web" with score 1/2 falls through to
the score-band default and yields LOW, not HIGH as the claim states. -/
theorem C4_counterexample :
    containsSub (pyLower "web") "web" = true ∧
    (0 : ℚ) ≤ 1/2 ∧ (1/2 : ℚ) ≤ 1 ∧
    get_network_ml_severity "web" (1/2) = "LOW" ∧
    get_network_ml_severity "web" (1/2) ≠ "HIGH" := by
  have hval : get_network_ml_severity "web" (1/2) = "LOW" := by
    unfold get_network_ml_severity
    rw [if_neg (by decide), if_neg (by decide), if_neg (by decide),
      if_neg (by decide), if_neg (by decide), if_neg (by norm_num),
      if_neg (by norm_num)]
    rfl
  refine ⟨by decide, by norm_num, by norm_num, hval, by rw [hval]; decide⟩

/-- C4 amended: for every label that contains "brute" or "patator"
(case-insensitively) and does not contain "dos", the classifier returns
HIGH for every score; labels containing "web" have no dedicated rule in
get_network_ml_severity. -/
theorem C4_brute_severity_high (label : String) (score : ℚ)
    (hb : containsSub (pyLower label) "brute" = true ∨
          containsSub (pyLower label) "patator" = true)
    (hd : containsSub (pyLower label) "dos" = false) :
    get_network_ml_severity label score = "HIGH" := by
  have hddos : containsSub (pyLower label) "ddos" = false := by
    by_contra hcon
    have h2 : containsSub (pyLower label) "ddos" = true := by
      revert hcon; cases containsSub (pyLower label) "ddos" <;> simp
    rw [containsSub_dos_of_ddos h2] at hd
    exact Bool.noConfusion hd
  unfold get_network_ml_severity
  rw [if_neg (by simp [hddos]), if_neg (by simp [hd]), if_pos]
  · rfl
  · rcases hb with h | h <;> simp [h]

/-- Witness for C4_brute_severity_high at the concrete label "Brute Force". -/
theorem C4_brute_severity_high_witness :
    get_network_ml_severity "Brute Force" (1/10) = "HIGH" :=
  C4_brute_severity_high "Brute Force" (1/10) (Or.inl (by decide)) (by decide)

/- ==================================================================
   db.py Detection rows and ingest/flow_ingest.py dedup + cooldown
   ================================================================== -/

/-- Embedding of a row of the detections table (db.py, class Detection).
Only the columns the ingest paths read or write are modelled; timestamps
are rationals. -/
structure Detection where
  id : ℕ
  ts : ℚ
  model_name : String
  label : String
  score : ℚ
  severity : String
  occurrences : ℕ
  first_seen : ℚ
  last_seen : ℚ
  src_ip : Option String
  dst_ip : Option String
  dst_port : Option ℤ
deriving DecidableEq

/-- Flow detection candidate: the dict returned by analyze_flow together
with the fields ingest_flow_event extracts from its details.  The string
and port fields carry the values after the falsy-normalisation the
ingest code applies to its query parameters. -/
structure FlowCandidate where
  ts : ℚ
  label : String
  score : ℚ
  severity : String
  src_ip : String
  dst_ip : String
  dst_port : ℤ
deriving DecidableEq

/-- Default of config.Settings.ml_dedup_window_seconds. -/
def ml_dedup_window_seconds : ℚ := 300

/-- Default of config.Settings.ml_cooldown_seconds_per_src. -/
def ml_cooldown_seconds_per_src : ℚ := 3600

/-- The WHERE clause of the dedup query in ingest_flow_event: same model
name, label and flow key, with the creation column ts strictly greater
than the cutoff (candidate timestamp minus the dedup window). -/
def dedupMatch (dedupWindow : ℚ) (cand : FlowCandidate) (d : Detection) : Bool :=
  decide (d.model_name = "network_rf" ∧ d.label = cand.label ∧
    cand.ts - dedupWindow < d.ts ∧ d.src_ip = some cand.src_ip ∧
    d.dst_ip = some cand.dst_ip ∧ d.dst_port = some cand.dst_port)

/-- The WHERE clause of the cooldown query in ingest_flow_event: same
model name, source IP and label, created strictly within the cooldown
window. -/
def cooldownMatch (cooldownWindow : ℚ) (cand : FlowCandidate) (d : Detection) : Bool :=
  decide (d.model_name = "network_rf" ∧ d.src_ip = some cand.src_ip ∧
    d.label = cand.label ∧ cand.ts - cooldownWindow < d.ts)

/-- ORDER BY ts DESC LIMIT 1 over the rows matching p. -/
def latestMatch (p : Detection → Bool) : List Detection → Option Detection
  | [] => none
  | d :: rest =>
      match latestMatch p rest with
      | none => if p d then some d else none
      | some best => if p d = true ∧ best.ts < d.ts then some d else some best

/-- The three-way outcome of the dedup/cooldown decision for one flow
candidate. -/
inductive FlowResolution where
  | mergeInto (id : ℕ) (newOccurrences : ℕ)
  | suppress
  | createNew
deriving DecidableEq

/-- The decision logic of ingest_flow_event (flow_ingest.py lines
68-163): first the dedup lookup (merge with occurrences (x or 1) + 1),
then the cooldown lookup (suppress), else create. -/
def resolveFlow (dedupWindow cooldownWindow : ℚ) (db : List Detection)
    (cand : FlowCandidate) : FlowResolution :=
  match latestMatch (dedupMatch dedupWindow cand) db with
  | some d => .mergeInto d.id ((if d.occurrences = 0 then 1 else d.occurrences) + 1)
  | none =>
      match latestMatch (cooldownMatch cooldownWindow cand) db with
      | some _ => .suppress
      | none => .createNew

/-- The detection row inserted for a flow candidate (the insert_detection
call of ingest_flow_event).  Empty strings and port 0 are falsy in
Python and are stored as NULL. -/
def mkFlowDetection (cand : FlowCandidate) (freshId : ℕ) : Detection :=
  { id := freshId, ts := cand.ts, model_name := "network_rf",
    label := cand.label, score := cand.score, severity := cand.severity,
    occurrences := 1, first_seen := cand.ts, last_seen := cand.ts,
    src_ip := if cand.src_ip = "" then none else some cand.src_ip,
    dst_ip := if cand.dst_ip = "" then none else some cand.dst_ip,
    dst_port := if cand.dst_port = 0 then none else some cand.dst_port }

/-- Applying the decision to the detections table: UPDATE occurrences
and last_seen on merge, nothing on suppress, INSERT on create. -/
def applyResolution (dedupWindow cooldownWindow : ℚ) (db : List Detection)
    (cand : FlowCandidate) (freshId : ℕ) : List Detection :=
  match resolveFlow dedupWindow cooldownWindow db cand with
  | .mergeInto i occ =>
      db.map (fun d => if d.id = i then
        { d with occurrences := occ, last_seen := cand.ts } else d)
  | .suppress => db
  | .createNew => db ++ [mkFlowDetection cand freshId]

/-- SSH detection candidate: the dict returned by analyze_auth_event,
restricted to the fields ingest_auth_event persists. -/
structure SSHCandidate where
  ts : ℚ
  label : String
  score : ℚ
  severity : String
  src_ip : String
deriving DecidableEq

/-- The detection row inserted by ingest_auth_event: insert_detection is
called without the network keyword fields, so the src/dst columns are
NULL and occurrences defaults to 1 (first/last_seen default to the
insertion time, modelled as the event timestamp). -/
def mkAuthDetection (cand : SSHCandidate) (freshId : ℕ) : Detection :=
  { id := freshId, ts := cand.ts, model_name := "ssh_lstm", label := cand.label,
    score := cand.score, severity := cand.severity, occurrences := 1,
    first_seen := cand.ts, last_seen := cand.ts,
    src_ip := none, dst_ip := none, dst_port := none }

/-- The detection-persistence step of ingest_auth_event (auth_ingest.py
lines 61-78): every SSH candidate is inserted directly; no dedup or
cooldown query runs on this path. -/
def ingestAuthDetection (db : List Detection) (cand : SSHCandidate)
    (freshId : ℕ) : List Detection :=
  db ++ [mkAuthDetection cand freshId]

/-- latestMatch finds nothing exactly when no row matches. -/
theorem latestMatch_eq_none {p : Detection → Bool} {db : List Detection} :
    latestMatch p db = none ↔ ∀ d ∈ db, p d = false := by
  induction db with
  | nil => simp [latestMatch]
  | cons d rest ih =>
      constructor
      · intro h
        cases hrest : latestMatch p rest with
        | none =>
            rw [latestMatch, hrest] at h
            by_cases hd : p d
            · simp [hd] at h
            · intro e he
              rcases List.mem_cons.mp he with rfl | he2
              · exact Bool.of_not_eq_true hd
              · exact (ih.mp hrest) e he2
        | some best =>
            rw [latestMatch, hrest] at h
            by_cases hcond : p d = true ∧ best.ts < d.ts
            · simp [hcond] at h
            · simp [hcond] at h
      · intro h
        have hrest : latestMatch p rest = none :=
          ih.mpr (fun e he => h e (List.mem_cons_of_mem _ he))
        rw [latestMatch, hrest]
        simp [h d (List.mem_cons_self _ _)]

/-- The row returned by latestMatch is a matching row of the table. -/
theorem latestMatch_mem {p : Detection → Bool} {db : List Detection} {d : Detection}
    (h : latestMatch p db = some d) : d ∈ db ∧ p d = true := by
  induction db with
  | nil => simp [latestMatch] at h
  | cons e rest ih =>
      cases hrest : latestMatch p rest with
      | none =>
          rw [latestMatch, hrest] at h
          by_cases he : p e
          · rw [if_pos he] at h
            cases h
            exact ⟨List.mem_cons_self _ _, he⟩
          · rw [if_neg he] at h
            cases h
      | some best =>
          simp only [latestMatch, hrest] at h
          by_cases hcond : p e = true ∧ best.ts < e.ts
          · rw [if_pos hcond] at h
            cases h
            exact ⟨List.mem_cons_self _ _, hcond.1⟩
          · rw [if_neg hcond] at h
            cases h
            have hb := ih hrest
            exact ⟨List.mem_cons_of_mem _ hb.1, hb.2⟩

/-- Existence form of the latestMatch lookup. -/
theorem latestMatch_isSome_iff {p : Detection → Bool} {db : List Detection} :
    (∃ d, latestMatch p db = some d) ↔ ∃ d ∈ db, p d = true := by
  constructor
  · rintro ⟨d, h⟩
    have hm := latestMatch_mem h
    exact ⟨d, hm.1, hm.2⟩
  · rintro ⟨d, hmem, hp⟩
    cases hlm : latestMatch p db with
    | none =>
        have := latestMatch_eq_none.mp hlm d hmem
        rw [hp] at this
        exact Bool.noConfusion this
    | some e => exact ⟨e, rfl⟩

/-- A persisted row matching the dedup key of a candidate, created
strictly inside the dedup window before the candidate. -/
def DedupKeyHit (W : ℚ) (cand : FlowCandidate) (db : List Detection) : Prop :=
  ∃ d ∈ db, d.model_name = "network_rf" ∧ d.label = cand.label ∧
    d.src_ip = some cand.src_ip ∧ d.dst_ip = some cand.dst_ip ∧
    d.dst_port = some cand.dst_port ∧ cand.ts - W < d.ts

/-- DedupKeyHit is the existence of a dedupMatch row. -/
theorem dedupKeyHit_iff {W : ℚ} {cand : FlowCandidate} {db : List Detection} :
    DedupKeyHit W cand db ↔ ∃ d ∈ db, dedupMatch W cand d = true := by
  unfold DedupKeyHit dedupMatch
  constructor
  · rintro ⟨d, hmem, h1, h2, h3, h4, h5, h6⟩
    exact ⟨d, hmem, by rw [decide_eq_true_iff]; exact ⟨h1, h2, h6, h3, h4, h5⟩⟩
  · rintro ⟨d, hmem, hdec⟩
    rw [decide_eq_true_iff] at hdec
    exact ⟨d, hmem, hdec.1, hdec.2.1, hdec.2.2.2.1, hdec.2.2.2.2.1,
      hdec.2.2.2.2.2, hdec.2.2.1⟩

/-- Detection row for the C1 counterexample: a network_rf DDoS row
created at t=0 whose last_seen was bumped to 250 by an earlier merge. -/
def C1row : Detection :=
  { id := 1, ts := 0, model_name := "network_rf", label := "DDoS", score := 1/2,
    severity := "CRITICAL", occurrences := 2, first_seen := 0, last_seen := 250,
    src_ip := some "1.2.3.4", dst_ip := some "5.6.7.8", dst_port := some 80 }

/-- Database state for the C1 counterexample. -/
def C1db : List Detection := [C1row]

/-- Flow candidate arriving at t=400 with the identical dedup key. -/
def C1cand : FlowCandidate :=
  { ts := 400, label := "DDoS", score := 1/2, severity := "CRITICAL",
    src_ip := "1.2.3.4", dst_ip := "5.6.7.8", dst_port := 80 }

/-- C1 counterexample: the dedup lookup keys recency on the creation
column ts, not on last_seen.  C1db holds a detection with the identical
dedup key that was last active 150 s before the candidate (inside the
default 300 s window), yet resolve does not return MergeInto: the
candidate is suppressed by the cooldown tier instead. -/
theorem C1_counterexample :
    (∃ d ∈ C1db, d.model_name = "network_rf" ∧ d.label = C1cand.label ∧
      d.src_ip = some C1cand.src_ip ∧ d.dst_ip = some C1cand.dst_ip ∧
      d.dst_port = some C1cand.dst_port ∧
      C1cand.ts - ml_dedup_window_seconds < d.last_seen) ∧
    resolveFlow ml_dedup_window_seconds ml_cooldown_seconds_per_src C1db C1cand =
      FlowResolution.suppress ∧
    (∀ i occ,
      resolveFlow ml_dedup_window_seconds ml_cooldown_seconds_per_src C1db C1cand ≠
        FlowResolution.mergeInto i occ) := by
  have hdedup : dedupMatch ml_dedup_window_seconds C1cand C1row = false := by
    simp only [dedupMatch, C1row, C1cand, ml_dedup_window_seconds]
    norm_num
  have hcool : cooldownMatch ml_cooldown_seconds_per_src C1cand C1row = true := by
    simp only [cooldownMatch, C1row, C1cand, ml_cooldown_seconds_per_src]
    norm_num
  have hresolve : resolveFlow ml_dedup_window_seconds ml_cooldown_seconds_per_src
      C1db C1cand = FlowResolution.suppress := by
    simp [resolveFlow, latestMatch, C1db, hdedup, hcool]
  refine ⟨?_, hresolve, ?_⟩
  · refine ⟨C1row, by simp [C1db], ?_⟩
    simp only [C1row, C1cand, ml_dedup_window_seconds]
    norm_num
  · intro i occ
    rw [hresolve]
    intro hcontra
    exact FlowResolution.noConfusion hcontra

/-- First candidate of the C1 merge scenario, at t=0. -/
def C1candA : FlowCandidate :=
  { ts := 0, label := "DDoS", score := 7/10, severity := "CRITICAL",
    src_ip := "9.9.9.9", dst_ip := "8.8.8.8", dst_port := 443 }

/-- Identical-key candidate 10 s later. -/
def C1candB : FlowCandidate := { C1candA with ts := 10 }

/-- Candidate 10 s later differing only in dst_port. -/
def C1candBport : FlowCandidate := { C1candA with ts := 10, dst_port := 444 }

/-- C1 amended: resolve returns MergeInto exactly when a persisted
detection with the identical dedup key was CREATED (column ts, not
last_seen) strictly within the dedup window before the candidate; the
merge bumps that row by one occurrence and sets last_seen to the
candidate timestamp, adding no row.  Concretely, two identical-key
candidates 10 s apart yield one detection with occurrences 2, and
changing only dst_port prevents merging. -/
theorem C1_dedup_merge (W C : ℚ) (db : List Detection) (cand : FlowCandidate)
    (fid : ℕ) (hocc : ∀ d ∈ db, 1 ≤ d.occurrences) :
    (DedupKeyHit W cand db ↔
      ∃ i occ, resolveFlow W C db cand = FlowResolution.mergeInto i occ) ∧
    (∀ i occ, resolveFlow W C db cand = FlowResolution.mergeInto i occ →
      (∃ d ∈ db, dedupMatch W cand d = true ∧ d.id = i ∧ occ = d.occurrences + 1) ∧
      applyResolution W C db cand fid =
        db.map (fun e => if e.id = i then
          { e with occurrences := occ, last_seen := cand.ts } else e) ∧
      (applyResolution W C db cand fid).length = db.length) ∧
    applyResolution ml_dedup_window_seconds ml_cooldown_seconds_per_src
        (applyResolution ml_dedup_window_seconds ml_cooldown_seconds_per_src [] C1candA 1)
        C1candB 2 =
      [{ mkFlowDetection C1candA 1 with occurrences := 2, last_seen := C1candB.ts }] ∧
    (∀ i occ,
      resolveFlow ml_dedup_window_seconds ml_cooldown_seconds_per_src
        (applyResolution ml_dedup_window_seconds ml_cooldown_seconds_per_src [] C1candA 1)
        C1candBport ≠ FlowResolution.mergeInto i occ) := by
  have hdb1 : applyResolution ml_dedup_window_seconds ml_cooldown_seconds_per_src
      [] C1candA 1 = [mkFlowDetection C1candA 1] := by
    simp [applyResolution, resolveFlow, latestMatch]
  refine ⟨?_, ?_, ?_, ?_⟩
  · constructor
    · intro hhit
      obtain ⟨d, hmem, hmatch⟩ := dedupKeyHit_iff.mp hhit
      obtain ⟨e, he⟩ := latestMatch_isSome_iff.mpr ⟨d, hmem, hmatch⟩
      exact ⟨e.id, _, by rw [resolveFlow, he]⟩
    · rintro ⟨i, occ, hres⟩
      rw [resolveFlow] at hres
      cases hlm : latestMatch (dedupMatch W cand) db with
      | none =>
          rw [hlm] at hres
          cases hlm2 : latestMatch (cooldownMatch C cand) db <;>
            rw [hlm2] at hres <;> exact FlowResolution.noConfusion hres
      | some d =>
          have hm := latestMatch_mem hlm
          exact dedupKeyHit_iff.mpr ⟨d, hm.1, hm.2⟩
  · intro i occ hres
    rw [resolveFlow] at hres
    cases hlm : latestMatch (dedupMatch W cand) db with
    | none =>
        rw [hlm] at hres
        cases hlm2 : latestMatch (cooldownMatch C cand) db <;>
          rw [hlm2] at hres <;> exact FlowResolution.noConfusion hres
    | some d =>
        rw [hlm] at hres
        injection hres with hid hoccs
        have hm := latestMatch_mem hlm
        have hocc1 : 1 ≤ d.occurrences := hocc d hm.1
        have hdnz : ¬ d.occurrences = 0 := by omega
        refine ⟨⟨d, hm.1, hm.2, hid, ?_⟩, ?_, ?_⟩
        · rw [← hoccs, if_neg hdnz]
        · simp only [applyResolution, resolveFlow, hlm, hid, hoccs]
        · simp only [applyResolution, resolveFlow, hlm]
          exact List.length_map _ _
  · rw [hdb1]
    have hmatch : dedupMatch ml_dedup_window_seconds C1candB
        (mkFlowDetection C1candA 1) = true := by
      simp only [dedupMatch, mkFlowDetection, C1candB, C1candA,
        ml_dedup_window_seconds]
      norm_num
      try decide
    simp only [applyResolution, resolveFlow, latestMatch, hmatch]
    simp [mkFlowDetection, C1candA, C1candB]
  · intro i occ
    rw [hdb1]
    have hmatch : dedupMatch ml_dedup_window_seconds C1candBport
        (mkFlowDetection C1candA 1) = false := by
      simp only [dedupMatch, mkFlowDetection, C1candBport, C1candA,
        ml_dedup_window_seconds]
      norm_num
      try decide
    have hcool : cooldownMatch ml_cooldown_seconds_per_src C1candBport
        (mkFlowDetection C1candA 1) = true := by
      simp only [cooldownMatch, mkFlowDetection, C1candBport, C1candA,
        ml_cooldown_seconds_per_src]
      norm_num
      try decide
    simp [resolveFlow, latestMatch, hmatch, hcool]

/-- Merging database for the C1 witness: a same-key row created 5 s
before the C1 candidate. -/
def C1dbW : List Detection :=
  [{ id := 3, ts := 395, model_name := "network_rf", label := "DDoS", score := 3/5,
     severity := "CRITICAL", occurrences := 1, first_seen := 395, last_seen := 395,
     src_ip := some "1.2.3.4", dst_ip := some "5.6.7.8", dst_port := some 80 }]

/-- Witness for C1_dedup_merge at a concrete merging instance. -/
theorem C1_dedup_merge_witness :
    DedupKeyHit ml_dedup_window_seconds C1cand C1dbW ↔
      ∃ i occ, resolveFlow ml_dedup_window_seconds ml_cooldown_seconds_per_src
        C1dbW C1cand = FlowResolution.mergeInto i occ :=
  (C1_dedup_merge ml_dedup_window_seconds ml_cooldown_seconds_per_src C1dbW C1cand 9
    (by intro d hd; simp only [C1dbW, List.mem_singleton] at hd; subst hd; decide)).1

/-- A persisted row matching the cooldown key (model, src_ip, label) of
a candidate, created strictly inside the cooldown window before it. -/
def CooldownKeyHit (C : ℚ) (cand : FlowCandidate) (db : List Detection) : Prop :=
  ∃ d ∈ db, d.model_name = "network_rf" ∧ d.src_ip = some cand.src_ip ∧
    d.label = cand.label ∧ cand.ts - C < d.ts

/-- CooldownKeyHit is the existence of a cooldownMatch row. -/
theorem cooldownKeyHit_iff {C : ℚ} {cand : FlowCandidate} {db : List Detection} :
    CooldownKeyHit C cand db ↔ ∃ d ∈ db, cooldownMatch C cand d = true := by
  simp only [CooldownKeyHit, cooldownMatch, decide_eq_true_eq]

/-- Cooldown row for the C2 scenario: a network_rf DDoS detection from
source 1.2.3.4 created at t=0, with a flow key the later candidates do
not share. -/
def C2row : Detection :=
  { id := 5, ts := 0, model_name := "network_rf", label := "DDoS", score := 4/5,
    severity := "CRITICAL", occurrences := 1, first_seen := 0, last_seen := 0,
    src_ip := some "1.2.3.4", dst_ip := some "7.7.7.7", dst_port := some 9 }

/-- Database for the C2 scenario. -/
def C2db : List Detection := [C2row]

/-- Candidate from the same source and label, different flow tuple, at
t=100. -/
def C2cand1 : FlowCandidate :=
  { ts := 100, label := "DDoS", score := 4/5, severity := "CRITICAL",
    src_ip := "1.2.3.4", dst_ip := "6.6.6.6", dst_port := 53 }

/-- The same source and label ten minutes after C2cand1. -/
def C2cand2 : FlowCandidate := { C2cand1 with ts := 700 }

/-- Same source, different label, at t=700. -/
def C2cand3 : FlowCandidate := { C2cand1 with ts := 700, label := "Port Scanning" }

/-- C2: with no dedup-key match, resolve suppresses exactly when some
persisted network_rf detection with the same (model, src_ip, label) lies
within the cooldown window before the candidate; suppression changes no
row; with no same-label row at all the candidate creates a new row.
Concretely: a suppressed (1.2.3.4, DDoS) candidate is suppressed again
600 s later, while a different label from the same source is not. -/
theorem C2_cooldown_suppress (W C : ℚ) (db : List Detection) (cand : FlowCandidate)
    (fid : ℕ) (hnodedup : ∀ d ∈ db, dedupMatch W cand d = false) :
    (resolveFlow W C db cand = FlowResolution.suppress ↔ CooldownKeyHit C cand db) ∧
    (resolveFlow W C db cand = FlowResolution.suppress →
      applyResolution W C db cand fid = db) ∧
    ((∀ d ∈ db, d.label ≠ cand.label) →
      resolveFlow W C db cand = FlowResolution.createNew) ∧
    resolveFlow ml_dedup_window_seconds ml_cooldown_seconds_per_src C2db C2cand1 =
      FlowResolution.suppress ∧
    resolveFlow ml_dedup_window_seconds ml_cooldown_seconds_per_src C2db C2cand2 =
      FlowResolution.suppress ∧
    resolveFlow ml_dedup_window_seconds ml_cooldown_seconds_per_src C2db C2cand3 =
      FlowResolution.createNew := by
  have hdd : latestMatch (dedupMatch W cand) db = none :=
    latestMatch_eq_none.mpr hnodedup
  refine ⟨?_, ?_, ?_, ?_, ?_, ?_⟩
  · constructor
    · intro hres
      rw [resolveFlow, hdd] at hres
      cases hcl : latestMatch (cooldownMatch C cand) db with
      | none => rw [hcl] at hres; exact FlowResolution.noConfusion hres
      | some d =>
          have hm := latestMatch_mem hcl
          exact cooldownKeyHit_iff.mpr ⟨d, hm.1, hm.2⟩
    · intro hhit
      obtain ⟨d, hmem, hmatch⟩ := cooldownKeyHit_iff.mp hhit
      obtain ⟨e, he⟩ := latestMatch_isSome_iff.mpr ⟨d, hmem, hmatch⟩
      rw [resolveFlow, hdd, he]
  · intro hres
    rw [applyResolution, hres]
  · intro hlbl
    have hcl : latestMatch (cooldownMatch C cand) db = none := by
      apply latestMatch_eq_none.mpr
      intro d hd
      have := hlbl d hd
      simp only [cooldownMatch, decide_eq_false_iff_not]
      intro hcon
      exact this hcon.2.2.1
    rw [resolveFlow, hdd, hcl]
  · have hd1 : dedupMatch ml_dedup_window_seconds C2cand1 C2row = false := by
      simp only [dedupMatch, C2row, C2cand1, ml_dedup_window_seconds]
      norm_num
    have hc1 : cooldownMatch ml_cooldown_seconds_per_src C2cand1 C2row = true := by
      simp only [cooldownMatch, C2row, C2cand1, ml_cooldown_seconds_per_src]
      norm_num
    simp [resolveFlow, latestMatch, C2db, hd1, hc1]
  · have hd2 : dedupMatch ml_dedup_window_seconds C2cand2 C2row = false := by
      simp only [dedupMatch, C2row, C2cand2, C2cand1, ml_dedup_window_seconds]
      norm_num
    have hc2 : cooldownMatch ml_cooldown_seconds_per_src C2cand2 C2row = true := by
      simp only [cooldownMatch, C2row, C2cand2, C2cand1, ml_cooldown_seconds_per_src]
      norm_num
    simp [resolveFlow, latestMatch, C2db, hd2, hc2]
  · have hd3 : dedupMatch ml_dedup_window_seconds C2cand3 C2row = false := by
      simp only [dedupMatch, C2row, C2cand3, C2cand1, ml_dedup_window_seconds]
      norm_num
    have hc3 : cooldownMatch ml_cooldown_seconds_per_src C2cand3 C2row = false := by
      simp only [cooldownMatch, C2row, C2cand3, C2cand1, ml_cooldown_seconds_per_src]
      norm_num
      try decide
    simp [resolveFlow, latestMatch, C2db, hd3, hc3]

/-- Witness for C2_cooldown_suppress: the concrete suppression instance. -/
theorem C2_cooldown_suppress_witness :
    resolveFlow ml_dedup_window_seconds ml_cooldown_seconds_per_src C2db C2cand1 =
      FlowResolution.suppress ↔
      CooldownKeyHit ml_cooldown_seconds_per_src C2cand1 C2db :=
  (C2_cooldown_suppress ml_dedup_window_seconds ml_cooldown_seconds_per_src C2db
    C2cand1 11
    (by
      intro d hd
      simp only [C2db, List.mem_singleton] at hd
      subst hd
      simp only [dedupMatch, C2row, C2cand1, ml_dedup_window_seconds]
      norm_num)).1

/-- SSH candidate for the C5 counterexample, at t=10. -/
def C5cand : SSHCandidate :=
  { ts := 10, label := "SSH_BRUTE_FORCE", score := 1/4, severity := "MEDIUM",
    src_ip := "10.0.0.5" }

/-- Database for the C5 counterexample: the persisted detection of an
identical SSH candidate ingested 10 s earlier. -/
def C5db : List Detection := [mkAuthDetection { C5cand with ts := 0 } 1]

/-- C5 counterexample: the auth ingestion path runs no dedup or cooldown
query.  C5db holds a detection with the key the auth path stores
(ssh_lstm, label, NULL flow columns) created 10 s before the identical
candidate C5cand — well inside the 300 s dedup window — yet ingesting
C5cand appends a second row with occurrences 1 instead of merging. -/
theorem C5_counterexample :
    (∃ d ∈ C5db, d.model_name = "ssh_lstm" ∧ d.label = C5cand.label ∧
      d.src_ip = none ∧ d.dst_ip = none ∧ d.dst_port = none ∧
      C5cand.ts - ml_dedup_window_seconds < d.ts) ∧
    ingestAuthDetection C5db C5cand 2 = C5db ++ [mkAuthDetection C5cand 2] ∧
    (ingestAuthDetection C5db C5cand 2).length = C5db.length + 1 ∧
    (∀ d ∈ ingestAuthDetection C5db C5cand 2, d.occurrences = 1) := by
  refine ⟨?_, rfl, by simp [ingestAuthDetection], ?_⟩
  · refine ⟨mkAuthDetection { C5cand with ts := 0 } 1, by simp [C5db], ?_⟩
    simp only [mkAuthDetection, C5cand, ml_dedup_window_seconds]
    norm_num
  · intro d hd
    simp only [ingestAuthDetection, C5db, List.mem_append, List.mem_singleton] at hd
    rcases hd with h | h <;> (subst h; rfl)

/-- C5 amended: flow candidates reach persistence only through the
resolve decision (a new row appears exactly on CreateNew, suppression
leaves the table unchanged, merging adds no row), while SSH candidates
always append one fresh row with no dedup or cooldown applied. -/
theorem C5_persistence_paths (W C : ℚ) (db : List Detection) (fc : FlowCandidate)
    (sc : SSHCandidate) (fid : ℕ) :
    ((applyResolution W C db fc fid).length = db.length + 1 ↔
      resolveFlow W C db fc = FlowResolution.createNew) ∧
    (resolveFlow W C db fc = FlowResolution.suppress →
      applyResolution W C db fc fid = db) ∧
    (∀ i occ, resolveFlow W C db fc = FlowResolution.mergeInto i occ →
      (applyResolution W C db fc fid).length = db.length) ∧
    (ingestAuthDetection db sc fid).length = db.length + 1 ∧
    ingestAuthDetection db sc fid = db ++ [mkAuthDetection sc fid] := by
  refine ⟨?_, ?_, ?_, by simp [ingestAuthDetection], rfl⟩
  · cases hres : resolveFlow W C db fc with
    | mergeInto i occ =>
        simp only [applyResolution, hres, List.length_map]
        constructor
        · intro h; omega
        · intro h; exact FlowResolution.noConfusion h
    | suppress =>
        simp only [applyResolution, hres]
        constructor
        · intro h; omega
        · intro h; exact FlowResolution.noConfusion h
    | createNew =>
        simp [applyResolution, hres]
  · intro hres
    rw [applyResolution, hres]
  · intro i occ hres
    simp only [applyResolution, hres, List.length_map]

/- ==================================================================
   detectors/ssh_lstm_detector.py + models_loader.SSHLSTMModel
   ================================================================== -/

/-- Lower-cased character list of a string (re.IGNORECASE handling). -/
def lowerData (s : String) : List Char := s.data.map Char.toLower

/-- Case-insensitive literal-substring search, as re.search does for the
literal TOKEN_PATTERNS. -/
def patMatch (l : List Char) (pat : String) : Bool := decide (lowerData pat <:+: l)

/-- The remainder just after the first occurrence of p, if p occurs. -/
def afterFirst (p : List Char) : List Char → Option (List Char)
  | [] => if p = [] then some [] else none
  | c :: cs =>
      if p.isPrefixOf (c :: cs) then some ((c :: cs).drop p.length)
      else afterFirst p cs

/-- Embedding of re.search for pam_unix.*authentication failure: an
occurrence of the first literal with the second occurring after it. -/
def containsSeq (l p q : List Char) : Bool :=
  match afterFirst p l with
  | some rest => decide (q <:+: rest)
  | none => false

/-- The TOKEN_PATTERNS scan of parse_auth_line: ordered, first match
wins, no match yields OTHER. -/
def lineToken (line : String) : String :=
  let l := lowerData line
  if patMatch l "Failed password for invalid user" then "INVALID_USER"
  else if patMatch l "Failed password for" then "FAILED_PASSWORD"
  else if patMatch l "Invalid user" then "INVALID_USER"
  else if patMatch l "Accepted password for" then "ACCEPTED_PASSWORD"
  else if patMatch l "Accepted publickey for" then "ACCEPTED_PUBLICKEY"
  else if patMatch l "Disconnected from" then "DISCONNECT"
  else if patMatch l "Connection closed by" then "CONNECTION_CLOSED"
  else if patMatch l "POSSIBLE BREAK-IN ATTEMPT" then "REVERSE_DNS_FAIL"
  else if patMatch l "Reverse mapping checking" then "REVERSE_DNS_FAIL"
  else if containsSeq l (lowerData "pam_unix") (lowerData "authentication failure") then
    "PAM_AUTH_FAILURE"
  else if patMatch l "authentication failure" then "AUTH_FAILURE"
  else if patMatch l "session opened for user" then "SESSION_OPENED"
  else if patMatch l "session closed for user" then "SESSION_CLOSED"
  else "OTHER"

/-- Alternatives for a greedy one-to-three digit match at the head of a
list (greediest first, as regex backtracking explores them). -/
def octetAlts (l : List Char) : List (List Char × List Char) :=
  match l with
  | [] => []
  | d1 :: rest1 =>
      if d1.isDigit then
        match rest1 with
        | [] => [([d1], rest1)]
        | d2 :: rest2 =>
            if d2.isDigit then
              match rest2 with
              | [] => [([d1, d2], rest2), ([d1], rest1)]
              | d3 :: rest3 =>
                  if d3.isDigit then
                    [([d1, d2, d3], rest3), ([d1, d2], rest2), ([d1], rest1)]
                  else [([d1, d2], rest2), ([d1], rest1)]
            else [([d1], rest1)]
      else []

/-- Alternatives for the IPv4 group of the IP_PATTERNS regexes at the
head of a list: dotted quad of one-to-three digit octets, greediest
first. -/
def ipv4Alts (l : List Char) : List (List Char × List Char) :=
  (octetAlts l).flatMap (fun a1 =>
    match a1.2 with
    | '.' :: r1 =>
        (octetAlts r1).flatMap (fun a2 =>
          match a2.2 with
          | '.' :: r2 =>
              (octetAlts r2).flatMap (fun a3 =>
                match a3.2 with
                | '.' :: r3 =>
                    (octetAlts r3).map (fun a4 =>
                      (a1.1 ++ '.' :: a2.1 ++ '.' :: a3.1 ++ '.' :: a4.1, a4.2))
                | _ => [])
          | _ => [])
    | _ => [])

/-- Pattern from whitespace-plus IPv4 anchored at the head of the list. -/
def tryFromAt (l : List Char) : Option (List Char) :=
  if ("from".data).isPrefixOf l then
    let rest := (l.drop 4)
    let ws := rest.takeWhile Char.isWhitespace
    if ws.length = 0 then none
    else ((ipv4Alts (rest.drop ws.length)).head?).map Prod.fst
  else none

/-- Pattern rhost= IPv4 anchored at the head of the list. -/
def tryRhostAt (l : List Char) : Option (List Char) :=
  if ("rhost=".data).isPrefixOf l then
    ((ipv4Alts (l.drop 6)).head?).map Prod.fst
  else none

/-- Pattern bracketed IPv4 anchored at the head of the list: the first
IPv4 alternative followed by a closing bracket. -/
def tryBracketAt (l : List Char) : Option (List Char) :=
  match l with
  | '[' :: rest =>
      (((ipv4Alts rest).filter (fun a =>
          match a.2 with
          | ']' :: _ => true
          | _ => false)).head?).map Prod.fst
  | _ => none

/-- re.search: scan every start position, leftmost match wins. -/
def scanFor (f : List Char → Option (List Char)) : List Char → Option (List Char)
  | [] => f []
  | c :: cs =>
      match f (c :: cs) with
      | some r => some r
      | none => scanFor f cs

/-- The IP_PATTERNS scan of parse_auth_line, in source order. -/
def extractIP (line : String) : Option String :=
  match scanFor tryFromAt line.data with
  | some ip => some (String.mk ip)
  | none =>
      match scanFor tryRhostAt line.data with
      | some ip => some (String.mk ip)
      | none => (scanFor tryBracketAt line.data).map String.mk

/-- Embedding of ssh_lstm_detector.parse_auth_line. -/
def parse_auth_line (line : String) : String × Option String :=
  (lineToken line, extractIP line)

/-- Abstracted SSH LSTM bundle (models_loader.SSHLSTMModel): the loaded
flag (loaded and model-present merged), the token vocabulary, window
size, decision threshold, and the underlying keras network as an
Except-valued scoring capability. -/
structure SSHModelCfg where
  loaded : Bool
  token2id : String → Option ℕ
  window_size : ℕ
  threshold : ℚ
  netScore : List ℕ → Except String ℚ

/-- The fallback token id token2id.get("OTHER", 0) used by
analyze_auth_event. -/
def otherTokenId (cfg : SSHModelCfg) : ℕ := (cfg.token2id "OTHER").getD 0

/-- The token id stored for a FAILED_PASSWORD event under a loaded
model. -/
def tokFP (cfg : SSHModelCfg) : ℕ :=
  (cfg.token2id "FAILED_PASSWORD").getD (otherTokenId cfg)

/-- Python slice l[-w:]: for w = 0 the slice is the whole list. -/
def pySliceLast (w : ℕ) (l : List α) : List α :=
  if w = 0 then l else l.drop (l.length - w)

/-- The sequence actually scored by SSHLSTMModel.predict: the input
zero-padded on the left up to the window size, then the last window
tokens. -/
def scoredSequence (cfg : SSHModelCfg) (seq : List ℕ) : List ℕ :=
  pySliceLast cfg.window_size
    (if seq.length < cfg.window_size then
      List.replicate (cfg.window_size - seq.length) 0 ++ seq
    else seq)

/-- Embedding of SSHLSTMModel.predict: returns (score, score ≥
threshold); an unloaded model or an exception in the network degrades to
(0, false). -/
def sshPredict (cfg : SSHModelCfg) (seq : List ℕ) : ℚ × Bool :=
  if cfg.loaded = false then (0, false)
  else
    match cfg.netScore (scoredSequence cfg seq) with
    | Except.ok s => (s, decide (cfg.threshold ≤ s))
    | Except.error _ => (0, false)

/-- Embedding of SSHEventTracker state: per-IP token history and failed
timestamps (defaultdict(list) becomes a total function with empty
default). -/
structure SSHTrackerState where
  ip_tokens : String → List (ℚ × ℕ)
  ip_failed : String → List ℚ

/-- The tracker before any event. -/
def emptyTracker : SSHTrackerState :=
  { ip_tokens := fun _ => [], ip_failed := fun _ => [] }

/-- SSHEventTracker.add_event: append (ts, token) and keep only entries
from the last hour (strictly newer than ts - 3600). -/
def add_event (st : SSHTrackerState) (ip : String) (tid : ℕ) (ts : ℚ) :
    SSHTrackerState :=
  { st with ip_tokens := fun k =>
      if k = ip then
        ((st.ip_tokens ip) ++ [(ts, tid)]).filter (fun e => decide (ts - 3600 < e.1))
      else st.ip_tokens k }

/-- SSHEventTracker.add_failed_attempt: same pruning on the failure
timestamps. -/
def add_failed_attempt (st : SSHTrackerState) (ip : String) (ts : ℚ) :
    SSHTrackerState :=
  { st with ip_failed := fun k =>
      if k = ip then
        ((st.ip_failed ip) ++ [ts]).filter (fun t => decide (ts - 3600 < t))
      else st.ip_failed k }

/-- SSHEventTracker.get_failed_count_in_window: failures strictly newer
than ts - window, so an event exactly at the cutoff is excluded. -/
def get_failed_count_in_window (st : SSHTrackerState) (ip : String)
    (ts window : ℚ) : ℕ :=
  ((st.ip_failed ip).filter (fun t => decide (ts - window < t))).length

/-- Stable insertion into a ts-sorted list: an element goes in front of
a later one exactly when its timestamp is strictly smaller or they are
equal and it came earlier (Python sorted stability). -/
def insertByTs (x : ℚ × ℕ) : List (ℚ × ℕ) → List (ℚ × ℕ)
  | [] => [x]
  | y :: ys => if x.1 ≤ y.1 then x :: y :: ys else y :: insertByTs x ys

/-- Python sorted(tokens, key=timestamp). -/
def sortByTs : List (ℚ × ℕ) → List (ℚ × ℕ)
  | [] => []
  | x :: xs => insertByTs x (sortByTs xs)

/-- SSHEventTracker.get_token_sequence: sort by time, take the last
window entries, extract the token ids. -/
def get_token_sequence (st : SSHTrackerState) (ip : String) (window : ℕ) :
    List ℕ :=
  (pySliceLast window (sortByTs (st.ip_tokens ip))).map Prod.snd

/-- Default config.Settings.ssh_bruteforce_window_seconds. -/
def ssh_bruteforce_window_seconds : ℚ := 300

/-- Default config.Settings.ssh_bruteforce_threshold. -/
def ssh_bruteforce_threshold : ℕ := 5

/-- The failure-type tokens of analyze_auth_event. -/
def FAILURE_TOKENS : List String :=
  ["FAILED_PASSWORD", "INVALID_USER", "PAM_AUTH_FAILURE", "AUTH_FAILURE"]

/-- Embedding of ssh_lstm_detector.analyze_auth_event: parse the line,
track the event and any failure, run the model on the recent token
sequence when at least 3 entries exist, count recent failures, and
build the candidate when either signal fires. -/
def analyze_auth_event (cfg : SSHModelCfg) (windowSec : ℚ) (failThreshold : ℕ)
    (st : SSHTrackerState) (line : String) (ts : ℚ) :
    SSHTrackerState × Option SSHCandidate :=
  match parse_auth_line line with
  | (token_name, ipOpt) =>
    match ipOpt with
    | none => (st, none)
    | some ip =>
        let token_id := if cfg.loaded then
            (cfg.token2id token_name).getD (otherTokenId cfg)
          else 0
        let st1 := add_event st ip token_id ts
        let st2 := if token_name ∈ FAILURE_TOKENS then
            add_failed_attempt st1 ip ts
          else st1
        let mres : ℚ × Bool :=
          if cfg.loaded then
            (if 3 ≤ (get_token_sequence st2 ip cfg.window_size).length then
              sshPredict cfg (get_token_sequence st2 ip cfg.window_size)
            else (0, false))
          else (0, false)
        let failed_count := get_failed_count_in_window st2 ip ts windowSec
        if mres.2 = true ∨ failThreshold ≤ failed_count then
          (st2, some (SSHCandidate.mk ts
            (if failThreshold ≤ failed_count then "SSH_BRUTE_FORCE"
              else if mres.2 then "SSH_ANOMALY" else "SSH_SUSPICIOUS")
            (max mres.1 ((failed_count : ℚ) / 20))
            (get_ssh_severity failed_count mres.2 mres.1)
            ip))
        else (st2, none)

/-- Sequential ingestion of auth lines through the tracker, returning
the final state and the per-line detector outcomes. -/
def runAuthLines (cfg : SSHModelCfg) (windowSec : ℚ) (failThreshold : ℕ) :
    SSHTrackerState → List (String × ℚ) →
      SSHTrackerState × List (Option SSHCandidate)
  | st, [] => (st, [])
  | st, (line, ts) :: rest =>
      match analyze_auth_event cfg windowSec failThreshold st line ts with
      | (st1, out) =>
          match runAuthLines cfg windowSec failThreshold st1 rest with
          | (st2, outs) => (st2, out :: outs)

/-- Insertion grows the length by one. -/
theorem length_insertByTs (x : ℚ × ℕ) (l : List (ℚ × ℕ)) :
    (insertByTs x l).length = l.length + 1 := by
  induction l with
  | nil => rfl
  | cons y ys ih =>
      unfold insertByTs
      by_cases h : x.1 ≤ y.1
      · simp [h]
      · simp [h, ih]

/-- Sorting preserves the length. -/
theorem length_sortByTs (l : List (ℚ × ℕ)) : (sortByTs l).length = l.length := by
  induction l with
  | nil => rfl
  | cons x xs ih => simp [sortByTs, length_insertByTs, ih]

/-- Membership in an insertion. -/
theorem mem_insertByTs {x y : ℚ × ℕ} {l : List (ℚ × ℕ)} :
    y ∈ insertByTs x l ↔ y = x ∨ y ∈ l := by
  induction l with
  | nil => simp [insertByTs]
  | cons z zs ih =>
      unfold insertByTs
      by_cases h : x.1 ≤ z.1
      · simp [h]
      · simp [h, ih]
        tauto

/-- Sorting preserves membership. -/
theorem mem_sortByTs {y : ℚ × ℕ} {l : List (ℚ × ℕ)} :
    y ∈ sortByTs l ↔ y ∈ l := by
  induction l with
  | nil => simp [sortByTs]
  | cons x xs ih =>
      simp [sortByTs, mem_insertByTs, ih]

/-- A Python tail slice commutes with map. -/
theorem map_pySliceLast {α β : Type} (f : α → β) (w : ℕ) (l : List α) :
    (pySliceLast w l).map f = pySliceLast w (l.map f) := by
  unfold pySliceLast
  by_cases h : w = 0
  · simp [h]
  · simp [h, List.map_drop]

/-- A Python tail slice of a list no longer than the window is the whole
list. -/
theorem pySliceLast_of_le {α : Type} {w : ℕ} {l : List α}
    (h : l.length ≤ w) : pySliceLast w l = l := by
  unfold pySliceLast
  by_cases hw : w = 0
  · simp [hw]
  · rw [if_neg hw]
    have : l.length - w = 0 := by omega
    rw [this, List.drop_zero]

/-- The token ids of a sorted constant-token history form a replicate. -/
theorem sortByTs_map_const (c : ℕ) (ts : List ℚ) :
    (sortByTs (ts.map (fun t => (t, c)))).map Prod.snd =
      List.replicate ts.length c := by
  apply List.eq_replicate.mpr
  constructor
  · rw [List.length_map, length_sortByTs, List.length_map]
  · intro b hb
    obtain ⟨e, he, hsnd⟩ := List.mem_map.mp hb
    have hmem := mem_sortByTs.mp he
    obtain ⟨t, _, het⟩ := List.mem_map.mp hmem
    rw [← hsnd, ← het]

/-- Tracker state for the C3 instances: one IP with three token entries. -/
def C3st : SSHTrackerState :=
  { ip_tokens := fun k => if k = "1.1.1.1" then [(0, 1), (10, 2), (20, 3)] else [],
    ip_failed := fun _ => [] }

/-- Model configuration for the C3 counterexample: the vocabulary maps
OTHER to id 7, not 0. -/
def C3cfg : SSHModelCfg :=
  { loaded := true,
    token2id := fun t =>
      if t = "OTHER" then some 7
      else if t = "FAILED_PASSWORD" then some 1 else none,
    window_size := 5, threshold := 1/2, netScore := fun _ => Except.ok 0 }

/-- C3 counterexample: SSHLSTMModel.predict pads with the literal token
id 0 (np.zeros), not with the OTHER-token id.  Under a vocabulary that
maps OTHER to 7, a 3-entry history in a 5-window is scored as
[0,0,1,2,3], which is not the history left-padded with the OTHER id. -/
theorem C3_counterexample :
    3 ≤ (C3st.ip_tokens "1.1.1.1").length ∧
    (C3st.ip_tokens "1.1.1.1").length < C3cfg.window_size ∧
    otherTokenId C3cfg = 7 ∧
    scoredSequence C3cfg (get_token_sequence C3st "1.1.1.1" C3cfg.window_size) =
      [0, 0, 1, 2, 3] ∧
    scoredSequence C3cfg (get_token_sequence C3st "1.1.1.1" C3cfg.window_size) ≠
      List.replicate (C3cfg.window_size - (C3st.ip_tokens "1.1.1.1").length)
        (otherTokenId C3cfg) ++
        get_token_sequence C3st "1.1.1.1" C3cfg.window_size := by
  decide

/-- C3 amended: whenever the SSH detector scores an IP whose token
history holds at least 3 but fewer than window-size entries, the scored
sequence is the full time-sorted token history left-padded at the front
with token id 0 up to exactly the window size; the recent (right) end is
never truncated.  The pad equals the OTHER-token id exactly when the
loaded vocabulary maps OTHER to 0. -/
theorem C3_left_padding (cfg : SSHModelCfg) (st : SSHTrackerState) (ip : String)
    (h3 : 3 ≤ (st.ip_tokens ip).length)
    (hlt : (st.ip_tokens ip).length < cfg.window_size) :
    get_token_sequence st ip cfg.window_size =
      (sortByTs (st.ip_tokens ip)).map Prod.snd ∧
    scoredSequence cfg (get_token_sequence st ip cfg.window_size) =
      List.replicate (cfg.window_size - (st.ip_tokens ip).length) 0 ++
        get_token_sequence st ip cfg.window_size ∧
    (scoredSequence cfg (get_token_sequence st ip cfg.window_size)).length =
      cfg.window_size := by
  have hlen : (sortByTs (st.ip_tokens ip)).length = (st.ip_tokens ip).length :=
    length_sortByTs _
  have h1 : get_token_sequence st ip cfg.window_size =
      (sortByTs (st.ip_tokens ip)).map Prod.snd := by
    unfold get_token_sequence
    rw [pySliceLast_of_le (by omega)]
  have hseqlen : (get_token_sequence st ip cfg.window_size).length =
      (st.ip_tokens ip).length := by
    rw [h1, List.length_map, hlen]
  have h2 : scoredSequence cfg (get_token_sequence st ip cfg.window_size) =
      List.replicate (cfg.window_size - (st.ip_tokens ip).length) 0 ++
        get_token_sequence st ip cfg.window_size := by
    unfold scoredSequence
    rw [if_pos (by omega), hseqlen]
    apply pySliceLast_of_le
    simp [hseqlen]
    omega
  refine ⟨h1, h2, ?_⟩
  rw [h2]
  simp [hseqlen]
  omega

/-- Witness for C3_left_padding at the concrete C3 state. -/
theorem C3_left_padding_witness :
    get_token_sequence C3st "1.1.1.1" C3cfg.window_size =
      (sortByTs (C3st.ip_tokens "1.1.1.1")).map Prod.snd ∧
    scoredSequence C3cfg (get_token_sequence C3st "1.1.1.1" C3cfg.window_size) =
      List.replicate (C3cfg.window_size - (C3st.ip_tokens "1.1.1.1").length) 0 ++
        get_token_sequence C3st "1.1.1.1" C3cfg.window_size ∧
    (scoredSequence C3cfg
        (get_token_sequence C3st "1.1.1.1" C3cfg.window_size)).length =
      C3cfg.window_size :=
  C3_left_padding C3cfg C3st "1.1.1.1" (by decide) (by decide)

/-- The literal auth.log line of the C7 scenario. -/
def C7line : String :=
  "Jan 12 10:00:00 server sshd[1234]: Failed password for root from 10.0.0.5 port 44000 ssh2"

/-- The C7 line parses to a FAILED_PASSWORD token from 10.0.0.5. -/
theorem C7parse : parse_auth_line C7line = ("FAILED_PASSWORD", some "10.0.0.5") := by
  decide

/-- Tracker states are equal when their fields agree pointwise. -/
theorem trackerExt {a b : SSHTrackerState}
    (h1 : ∀ k, a.ip_tokens k = b.ip_tokens k)
    (h2 : ∀ k, a.ip_failed k = b.ip_failed k) : a = b := by
  cases a
  cases b
  simp only [SSHTrackerState.mk.injEq]
  exact ⟨funext h1, funext h2⟩

/-- The tracker state after observing the C7 line at each time in the
list: a constant FAILED_PASSWORD token history and matching failure
timestamps for 10.0.0.5. -/
def C7state (cfg : SSHModelCfg) (times : List ℚ) : SSHTrackerState :=
  { ip_tokens := fun k =>
      if k = "10.0.0.5" then times.map (fun t => (t, tokFP cfg)) else [],
    ip_failed := fun k => if k = "10.0.0.5" then times else [] }

/-- The empty C7 state is the fresh tracker. -/
theorem C7state_nil (cfg : SSHModelCfg) : C7state cfg [] = emptyTracker :=
  trackerExt (fun k => by simp [C7state, emptyTracker])
    (fun k => by simp [C7state, emptyTracker])

/-- One observation of the C7 line updates the tracked state by
appending the timestamp, with no pruning when all events are recent. -/
theorem C7_track (cfg : SSHModelCfg) (times : List ℚ) (ts : ℚ)
    (hwin : ∀ t ∈ times, ts - 300 < t) :
    add_failed_attempt
      (add_event (C7state cfg times) "10.0.0.5" (tokFP cfg) ts) "10.0.0.5" ts =
      C7state cfg (times ++ [ts]) := by
  have hkeep : ∀ t ∈ times ++ [ts], ts - 3600 < t := by
    intro t ht
    rcases List.mem_append.mp ht with h | h
    · have := hwin t h
      linarith
    · rw [List.mem_singleton] at h
      subst h
      linarith
  have hTok : (C7state cfg times).ip_tokens "10.0.0.5" =
      times.map (fun t => (t, tokFP cfg)) := by simp [C7state]
  apply trackerExt
  · intro k
    by_cases hk : k = "10.0.0.5"
    · subst hk
      show ((C7state cfg times).ip_tokens "10.0.0.5" ++ [(ts, tokFP cfg)]).filter
          (fun e => decide (ts - 3600 < e.1)) =
        (times ++ [ts]).map (fun t => (t, tokFP cfg))
      rw [hTok, List.filter_eq_self.mpr ?_, List.map_append]
      · rfl
      intro e he
      rw [decide_eq_true_iff]
      rcases List.mem_append.mp he with h | h
      · obtain ⟨t, hmem, het⟩ := List.mem_map.mp h
        rw [← het]
        exact hkeep t (List.mem_append.mpr (Or.inl hmem))
      · rw [List.mem_singleton] at h
        subst h
        show ts - 3600 < ts
        linarith
    · have h1 : (add_failed_attempt (add_event (C7state cfg times) "10.0.0.5"
          (tokFP cfg) ts) "10.0.0.5" ts).ip_tokens k =
          (C7state cfg times).ip_tokens k := by
        show (if k = "10.0.0.5" then
            ((C7state cfg times).ip_tokens "10.0.0.5" ++ [(ts, tokFP cfg)]).filter
              (fun e => decide (ts - 3600 < e.1))
          else (C7state cfg times).ip_tokens k) = (C7state cfg times).ip_tokens k
        rw [if_neg hk]
      rw [h1]
      simp [C7state, hk]
  · intro k
    by_cases hk : k = "10.0.0.5"
    · subst hk
      show ((C7state cfg times).ip_failed "10.0.0.5" ++ [ts]).filter
          (fun t => decide (ts - 3600 < t)) = times ++ [ts]
      have hFail : (C7state cfg times).ip_failed "10.0.0.5" = times := by
        simp [C7state]
      rw [hFail, List.filter_eq_self.mpr ?_]
      intro t ht
      rw [decide_eq_true_iff]
      exact hkeep t ht
    · have h1 : (add_failed_attempt (add_event (C7state cfg times) "10.0.0.5"
          (tokFP cfg) ts) "10.0.0.5" ts).ip_failed k =
          (C7state cfg times).ip_failed k := by
        show (if k = "10.0.0.5" then
            ((C7state cfg times).ip_failed "10.0.0.5" ++ [ts]).filter
              (fun t => decide (ts - 3600 < t))
          else (C7state cfg times).ip_failed k) = (C7state cfg times).ip_failed k
        rw [if_neg hk]
      rw [h1]
      simp [C7state, hk]

/-- A Python tail slice of a replicate. -/
theorem pySliceLast_replicate {α : Type} (w n : ℕ) (hw : w ≠ 0) (c : α) :
    pySliceLast w (List.replicate n c) = List.replicate (n - (n - w)) c := by
  unfold pySliceLast
  rw [if_neg hw, List.length_replicate, List.drop_replicate]

/-- The token sequence the detector extracts from a C7 state. -/
theorem C7_seq (cfg : SSHModelCfg) (times : List ℚ) (hw : cfg.window_size ≠ 0) :
    get_token_sequence (C7state cfg times) "10.0.0.5" cfg.window_size =
      List.replicate (times.length - (times.length - cfg.window_size))
        (tokFP cfg) := by
  unfold get_token_sequence
  rw [show (C7state cfg times).ip_tokens "10.0.0.5" =
    times.map (fun t => (t, tokFP cfg)) from by simp [C7state]]
  rw [map_pySliceLast, sortByTs_map_const, pySliceLast_replicate _ _ hw]

/-- The failed count at a C7 state when every failure is inside the
window. -/
theorem C7_failed (cfg : SSHModelCfg) (times : List ℚ) (ts : ℚ)
    (hwin : ∀ t ∈ times, ts - 300 < t) :
    get_failed_count_in_window (C7state cfg times) "10.0.0.5" ts 300 =
      times.length := by
  unfold get_failed_count_in_window
  rw [show (C7state cfg times).ip_failed "10.0.0.5" = times from by simp [C7state]]
  rw [List.filter_eq_self.mpr ?_]
  intro t ht
  rw [decide_eq_true_iff]
  exact hwin t ht

/-- The model score the detector computes at the n-th C7 observation. -/
def C7mscore (cfg : SSHModelCfg) (n : ℕ) : ℚ :=
  (sshPredict cfg (List.replicate (n - (n - cfg.window_size)) (tokFP cfg))).1

/-- One step of the C7 scenario: observing the literal line at time ts
after the same line was seen at each earlier time (all within the
bruteforce window) extends the state and emits a candidate exactly when
the new failed count reaches 5. -/
theorem C7_step (cfg : SSHModelCfg) (times : List ℚ) (ts : ℚ)
    (hload : cfg.loaded = true) (hw3 : 3 ≤ cfg.window_size)
    (hquiet : ∀ s, (sshPredict cfg s).2 = false)
    (hwin : ∀ t ∈ times, ts - 300 < t) :
    analyze_auth_event cfg ssh_bruteforce_window_seconds ssh_bruteforce_threshold
        (C7state cfg times) C7line ts =
      (C7state cfg (times ++ [ts]),
        if 5 ≤ times.length + 1 then
          some (SSHCandidate.mk ts "SSH_BRUTE_FORCE"
            (max (C7mscore cfg (times.length + 1))
              (((times.length + 1 : ℕ) : ℚ) / 20))
            (get_ssh_severity (times.length + 1) false
              (C7mscore cfg (times.length + 1)))
            "10.0.0.5")
        else none) := by
  have hwin2 : ∀ t ∈ times ++ [ts], ts - 300 < t := by
    intro t ht
    rcases List.mem_append.mp ht with h | h
    · exact hwin t h
    · rw [List.mem_singleton] at h
      subst h
      linarith
  have hw0 : cfg.window_size ≠ 0 := by omega
  have htrack : add_failed_attempt
      (add_event (C7state cfg times) "10.0.0.5"
        ((cfg.token2id "FAILED_PASSWORD").getD (otherTokenId cfg)) ts)
      "10.0.0.5" ts = C7state cfg (times ++ [ts]) :=
    C7_track cfg times ts hwin
  have hseq := C7_seq cfg (times ++ [ts]) hw0
  have hfail := C7_failed cfg (times ++ [ts]) ts hwin2
  have hlen : (times ++ [ts]).length = times.length + 1 := by simp
  rw [hlen] at hseq hfail
  simp only [analyze_auth_event, C7parse, ssh_bruteforce_window_seconds,
    ssh_bruteforce_threshold, hload, eq_self_iff_true, if_true]
  rw [if_pos (show ("FAILED_PASSWORD" : String) ∈ FAILURE_TOKENS from by decide)]
  rw [htrack, hseq, hfail, List.length_replicate]
  by_cases h5 : 5 ≤ times.length + 1
  · have hm3 : 3 ≤ (times.length + 1) - ((times.length + 1) - cfg.window_size) := by
      omega
    rw [if_pos hm3]
    have hq := hquiet (List.replicate
      ((times.length + 1) - ((times.length + 1) - cfg.window_size)) (tokFP cfg))
    rw [if_pos (by rw [hq]; exact Or.inr h5), if_pos h5, if_pos h5, hq]
    rfl
  · have hm2 : ((if 3 ≤ (times.length + 1) - ((times.length + 1) - cfg.window_size)
        then sshPredict cfg (List.replicate
          ((times.length + 1) - ((times.length + 1) - cfg.window_size)) (tokFP cfg))
        else ((0 : ℚ), false))).2 = false := by
      split
      · exact hquiet _
      · rfl
    rw [if_neg ?_, if_neg h5]
    rw [hm2]
    simp [h5]

/-- C7: feeding the literal failed-password line five times within 300 s
from the same IP, with the model loaded and never flagging an anomaly,
yields no candidate on the first four observations and exactly one on
the fifth, labeled SSH_BRUTE_FORCE with severity MEDIUM and score
max(modelScore, 5/20). -/
theorem C7_bruteforce_scenario (cfg : SSHModelCfg) (t1 t2 t3 t4 t5 : ℚ)
    (hload : cfg.loaded = true) (hwdw : 3 ≤ cfg.window_size)
    (h12 : t1 ≤ t2) (h23 : t2 ≤ t3) (h34 : t3 ≤ t4) (h45 : t4 ≤ t5)
    (hspan : t5 - t1 < 300)
    (hquiet : ∀ s, (sshPredict cfg s).2 = false) :
    (runAuthLines cfg ssh_bruteforce_window_seconds ssh_bruteforce_threshold
        emptyTracker
        [(C7line, t1), (C7line, t2), (C7line, t3), (C7line, t4), (C7line, t5)]).2 =
      [none, none, none, none,
        some (SSHCandidate.mk t5 "SSH_BRUTE_FORCE"
          (max ((sshPredict cfg
              (List.replicate (min cfg.window_size 5) (tokFP cfg))).1) (5 / 20))
          "MEDIUM" "10.0.0.5")] := by
  have hscore : C7mscore cfg 5 =
      (sshPredict cfg (List.replicate (min cfg.window_size 5) (tokFP cfg))).1 := by
    rw [C7mscore, show (5 : ℕ) - (5 - cfg.window_size) = min cfg.window_size 5 from
      by omega]
  have hsev : get_ssh_severity 5 false (C7mscore cfg 5) = "MEDIUM" := by
    simp [get_ssh_severity, MEDIUM]
  have s1 := C7_step cfg [] t1 hload hwdw hquiet (by simp)
  have s2 := C7_step cfg [t1] t2 hload hwdw hquiet (by
    intro t ht
    rw [List.mem_singleton] at ht
    subst ht
    linarith)
  have s3 := C7_step cfg [t1, t2] t3 hload hwdw hquiet (by
    intro t ht
    simp only [List.mem_cons, List.mem_singleton, List.not_mem_nil, or_false] at ht
    rcases ht with rfl | rfl <;> linarith)
  have s4 := C7_step cfg [t1, t2, t3] t4 hload hwdw hquiet (by
    intro t ht
    simp only [List.mem_cons, List.mem_singleton, List.not_mem_nil, or_false] at ht
    rcases ht with rfl | rfl | rfl <;> linarith)
  have s5 := C7_step cfg [t1, t2, t3, t4] t5 hload hwdw hquiet (by
    intro t ht
    simp only [List.mem_cons, List.mem_singleton, List.not_mem_nil, or_false] at ht
    rcases ht with rfl | rfl | rfl | rfl <;> linarith)
  simp only [List.nil_append, List.cons_append, List.append_nil, List.length_nil,
    List.length_cons, List.singleton_append] at s1 s2 s3 s4 s5
  norm_num at s1 s2 s3 s4 s5
  rw [← C7state_nil cfg]
  simp only [runAuthLines, s1, s2, s3, s4, s5]
  rw [hscore] at hsev
  simp [hscore, hsev]
  norm_num

/-- Concrete quiet model configuration for the C7 witness. -/
def C7cfgW : SSHModelCfg :=
  { loaded := true,
    token2id := fun t =>
      if t = "FAILED_PASSWORD" then some 1
      else if t = "OTHER" then some 0 else none,
    window_size := 10, threshold := 1, netScore := fun _ => Except.ok 0 }

/-- Witness for C7_bruteforce_scenario at times 0,10,20,30,40. -/
theorem C7_bruteforce_scenario_witness :
    (runAuthLines C7cfgW ssh_bruteforce_window_seconds ssh_bruteforce_threshold
        emptyTracker
        [(C7line, 0), (C7line, 10), (C7line, 20), (C7line, 30), (C7line, 40)]).2 =
      [none, none, none, none,
        some (SSHCandidate.mk 40 "SSH_BRUTE_FORCE"
          (max ((sshPredict C7cfgW
              (List.replicate (min C7cfgW.window_size 5) (tokFP C7cfgW))).1) (5 / 20))
          "MEDIUM" "10.0.0.5")] :=
  C7_bruteforce_scenario C7cfgW 0 10 20 30 40 rfl (by decide)
    (by norm_num) (by norm_num) (by norm_num) (by norm_num) (by norm_num)
    (by
      intro s
      simp [sshPredict, C7cfgW])

/- ==================================================================
   detectors/network_feature_mapper.py
   ================================================================== -/

/-- A flow-metric map: NFStream field name to value; none stands for an
absent key or a null value (both fall through to the derived/median
path, exactly as in the Python loop). -/
def FlowMetrics : Type := String → Option ℚ

/-- The Python pattern flow_data.get(k, 0) or 0. -/
def fget (f : FlowMetrics) (k : String) : ℚ := (f k).getD 0

/-- normalize_feature_name: drop the spaces of a CIC-IDS feature name. -/
def normalizeFeatureName (name : String) : String :=
  String.mk (name.data.filter (fun c => c ≠ ' '))

/-- The non-None entries of FEATURE_MAPPING (direct NFStream field
mappings); names mapped to None in the Python dict and names absent
from it behave identically and are both modelled as none. -/
def FEATURE_MAPPING (n : String) : Option String :=
  if n = "DestinationPort" then some "dst_port"
  else if n = "FlowDuration" then some "bidirectional_duration_ms"
  else if n = "TotalFwdPackets" then some "src2dst_packets"
  else if n = "TotalLengthofFwdPackets" then some "src2dst_bytes"
  else if n = "FwdPacketLengthMax" then some "src2dst_max_ps"
  else if n = "FwdPacketLengthMin" then some "src2dst_min_ps"
  else if n = "FwdPacketLengthMean" then some "src2dst_mean_ps"
  else if n = "FwdPacketLengthStd" then some "src2dst_stddev_ps"
  else if n = "BwdPacketLengthMax" then some "dst2src_max_ps"
  else if n = "BwdPacketLengthMin" then some "dst2src_min_ps"
  else if n = "BwdPacketLengthMean" then some "dst2src_mean_ps"
  else if n = "BwdPacketLengthStd" then some "dst2src_stddev_ps"
  else if n = "MinPacketLength" then some "bidirectional_min_ps"
  else if n = "MaxPacketLength" then some "bidirectional_max_ps"
  else if n = "PacketLengthMean" then some "bidirectional_mean_ps"
  else if n = "PacketLengthStd" then some "bidirectional_stddev_ps"
  else if n = "FINFlagCount" then some "bidirectional_fin_packets"
  else if n = "PSHFlagCount" then some "bidirectional_psh_packets"
  else if n = "ACKFlagCount" then some "bidirectional_ack_packets"
  else if n = "SubflowFwdBytes" then some "src2dst_bytes"
  else if n = "FlowIATMean" then some "bidirectional_mean_piat_ms"
  else if n = "FlowIATStd" then some "bidirectional_stddev_piat_ms"
  else if n = "FlowIATMax" then some "bidirectional_max_piat_ms"
  else if n = "FlowIATMin" then some "bidirectional_min_piat_ms"
  else if n = "FwdIATMean" then some "src2dst_mean_piat_ms"
  else if n = "FwdIATStd" then some "src2dst_stddev_piat_ms"
  else if n = "FwdIATMax" then some "src2dst_max_piat_ms"
  else if n = "FwdIATMin" then some "src2dst_min_piat_ms"
  else if n = "BwdIATMean" then some "dst2src_mean_piat_ms"
  else if n = "BwdIATStd" then some "dst2src_stddev_piat_ms"
  else if n = "BwdIATMax" then some "dst2src_max_piat_ms"
  else if n = "BwdIATMin" then some "dst2src_min_piat_ms"
  else none

/-- IAT_FEATURES_TO_CONVERT_MS_TO_US. -/
def IAT_FEATURES : List String :=
  ["FlowIATMean", "FlowIATStd", "FlowIATMax", "FlowIATMin",
   "FwdIATTotal", "FwdIATMean", "FwdIATStd", "FwdIATMax", "FwdIATMin",
   "BwdIATTotal", "BwdIATMean", "BwdIATStd", "BwdIATMax", "BwdIATMin"]

/-- The four rate features the duration guard protects. -/
def RATE_FEATURES : List String :=
  ["FlowBytes/s", "FlowPackets/s", "FwdPackets/s", "BwdPackets/s"]

/-- One iteration of the map_flow_to_features loop: direct mapping with
unit conversion, derived features, ms-to-microsecond conversion for IAT
features, median (or 0) fallback; non-finiteness cannot arise over
rationals.  minDur mirrors MIN_FLOW_DURATION_MS (default 50). -/
def mapFeatureValue (minDur : ℚ) (flow : FlowMetrics) (median : String → Option ℚ)
    (feature_name : String) : ℚ :=
  let normalized := normalizeFeatureName feature_name
  let duration_ms := fget flow "bidirectional_duration_ms"
  let rate_safe : ℚ := if minDur ≤ duration_ms then duration_ms / 1000 else 0
  let total_bytes := fget flow "bidirectional_bytes"
  let total_packets := fget flow "bidirectional_packets"
  let fwd_packets := fget flow "src2dst_packets"
  let bwd_packets := fget flow "dst2src_packets"
  let std_ps := fget flow "bidirectional_stddev_ps"
  let direct : Option ℚ :=
    match FEATURE_MAPPING normalized with
    | some fld =>
        match flow fld with
        | some v => some (if normalized = "FlowDuration" then v * 1000 else v)
        | none => none
    | none => none
  let derived : Option ℚ :=
    match direct with
    | some v => some v
    | none =>
        if normalized = "FlowBytes/s" then
          some (if 0 < rate_safe then total_bytes / rate_safe else 0)
        else if normalized = "FlowPackets/s" then
          some (if 0 < rate_safe then total_packets / rate_safe else 0)
        else if normalized = "FwdPackets/s" then
          some (if 0 < rate_safe then fwd_packets / rate_safe else 0)
        else if normalized = "BwdPackets/s" then
          some (if 0 < rate_safe then bwd_packets / rate_safe else 0)
        else if normalized = "AveragePacketSize" then
          some (if 0 < total_packets then total_bytes / total_packets else 0)
        else if normalized = "PacketLengthVariance" then
          some (if std_ps ≠ 0 then std_ps ^ 2 else 0)
        else if normalized = "FwdIATTotal" then
          some ((fget flow "src2dst_mean_piat_ms") * (max (fwd_packets - 1) 0) * 1000)
        else if normalized = "BwdIATTotal" then
          some ((fget flow "dst2src_mean_piat_ms") * (max (bwd_packets - 1) 0) * 1000)
        else none
  let converted : Option ℚ :=
    match derived with
    | some v =>
        if normalized ∈ IAT_FEATURES ∧ normalized ≠ "FwdIATTotal" ∧
            normalized ≠ "BwdIATTotal" then
          some (v * 1000)
        else some v
    | none => none
  match converted with
  | some v => v
  | none => (median feature_name).getD 0

/-- Embedding of map_flow_to_features: one value per expected feature
name, in order. -/
def map_flow_to_features (minDur : ℚ) (flow : FlowMetrics) (median : String → Option ℚ)
    (feature_list : List String) : List ℚ :=
  feature_list.map (mapFeatureValue minDur flow median)

/-- Default MIN_FLOW_DURATION_MS from network_feature_mapper.py. -/
def MIN_FLOW_DURATION_MS : ℚ := 50

/-- The NFStream count field a rate feature divides by the duration. -/
def rateNumerator (normalized : String) (flow : FlowMetrics) : ℚ :=
  if normalized = "FlowBytes/s" then fget flow "bidirectional_bytes"
  else if normalized = "FlowPackets/s" then fget flow "bidirectional_packets"
  else if normalized = "FwdPackets/s" then fget flow "src2dst_packets"
  else fget flow "dst2src_packets"

/-- C6: every rate feature of the mapped vector is 0 when the flow
duration is below the configured minimum (default 50 ms) and is the
corresponding count divided by the duration in seconds otherwise. -/
theorem C6_rate_guard (minDur : ℚ) (hmin : 0 < minDur) (flow : FlowMetrics)
    (median : String → Option ℚ) (feature_list : List String) (i : ℕ)
    (hi : i < feature_list.length)
    (hrate : normalizeFeatureName (feature_list.get ⟨i, hi⟩) ∈ RATE_FEATURES) :
    (map_flow_to_features minDur flow median feature_list).get
        ⟨i, by simpa [map_flow_to_features] using hi⟩ =
      if fget flow "bidirectional_duration_ms" < minDur then 0
      else rateNumerator (normalizeFeatureName (feature_list.get ⟨i, hi⟩)) flow /
        (fget flow "bidirectional_duration_ms" / 1000) := by
  simp only [map_flow_to_features, List.get_eq_getElem, List.getElem_map]
  set name := feature_list.get ⟨i, hi⟩
  rw [show feature_list[i] = name from rfl]
  simp only [RATE_FEATURES, List.mem_cons, List.not_mem_nil, or_false] at hrate
  have hdirect : FEATURE_MAPPING (normalizeFeatureName name) = none := by
    rcases hrate with h | h | h | h <;> rw [h] <;> decide
  unfold mapFeatureValue
  simp only [hdirect]
  by_cases hdur : fget flow "bidirectional_duration_ms" < minDur
  · have hsafe : ¬ minDur ≤ fget flow "bidirectional_duration_ms" := by linarith
    rcases hrate with h | h | h | h <;>
      simp [h, hsafe, rateNumerator, hdur, lt_irrefl]
  · have hsafe : minDur ≤ fget flow "bidirectional_duration_ms" := by linarith
    have hpos : 0 < fget flow "bidirectional_duration_ms" / 1000 := by
      have : 0 < fget flow "bidirectional_duration_ms" := lt_of_lt_of_le hmin hsafe
      positivity
    rcases hrate with h | h | h | h <;>
      simp [h, hsafe, rateNumerator, hdur, hpos, IAT_FEATURES]

/-- Witness for C6_rate_guard: a 100 ms flow with 500 bytes maps
FlowBytes/s to 5000. -/
theorem C6_rate_guard_witness :
    (map_flow_to_features MIN_FLOW_DURATION_MS
        (fun k => if k = "bidirectional_duration_ms" then some 100
          else if k = "bidirectional_bytes" then some 500 else none)
        (fun _ => none) ["Flow Bytes/s"]).get ⟨0, by simp [map_flow_to_features]⟩ =
      if fget (fun k => if k = "bidirectional_duration_ms" then some 100
          else if k = "bidirectional_bytes" then some 500 else none)
          "bidirectional_duration_ms" < MIN_FLOW_DURATION_MS then 0
      else rateNumerator (normalizeFeatureName "Flow Bytes/s")
          (fun k => if k = "bidirectional_duration_ms" then some 100
            else if k = "bidirectional_bytes" then some 500 else none) /
        (fget (fun k => if k = "bidirectional_duration_ms" then some 100
          else if k = "bidirectional_bytes" then some 500 else none)
          "bidirectional_duration_ms" / 1000) :=
  C6_rate_guard MIN_FLOW_DURATION_MS (by norm_num [MIN_FLOW_DURATION_MS])
    (fun k => if k = "bidirectional_duration_ms" then some 100
      else if k = "bidirectional_bytes" then some 500 else none)
    (fun _ => none) ["Flow Bytes/s"] 0 (by norm_num) (by decide)

/- ==================================================================
   detectors/network_ml_detector.analyze_flow and the ingest wrappers
   ================================================================== -/

/-- The ENV-driven filter flags of network_ml_detector.py. -/
structure NetworkMLFlags where
  disable_broadcast_filter : Bool
  disable_known_label_check : Bool
  disable_allowlist : Bool
  disable_gating : Bool
  strict_filters : Bool
  label_normalization : Bool

/-- The settings and model metadata analyze_flow consults. -/
structure NetworkMLConfig where
  flags : NetworkMLFlags
  benign_label : String
  known_labels : List String
  allowlist : List String
  label_thresholds : String → Option ℚ
  network_ml_threshold : ℚ
  min_volume_attack_duration_ms : ℚ
  min_volume_attack_packets : ℚ
  min_volume_attack_bytes : ℚ
  ml_min_flow_rate_pps : ℚ
  ml_min_bytes_per_second : ℚ

/-- The two fallible capabilities inside the try block of analyze_flow:
the feature mapper (map_flow_to_features plus preprocess_features) and
the classifier (network_ml_model.predict, restricted to the label and
score the rest of the pipeline consumes). -/
structure FlowDetectorOps where
  mapFeatures : FlowMetrics → Except String (List ℚ)
  classify : List ℚ → Except String (String × ℚ)

/-- The flow event fields analyze_flow reads outside the metric map. -/
structure FlowEvent where
  src_ip : String
  dst_ip : String
  dst_port : ℤ
  protocol : String
  metrics : FlowMetrics

/-- The detection dict returned by analyze_flow, restricted to the
fields the ingest path persists. -/
structure FlowDetection where
  label : String
  score : ℚ
  severity : String

/-- The broadcast/DHCP early filter of analyze_flow. -/
def isBroadcastFlow (ev : FlowEvent) : Bool :=
  decide (ev.src_ip = "0.0.0.0" ∨ ev.dst_ip = "255.255.255.255" ∨
    ev.dst_port = 67 ∨ ev.dst_port = 68 ∨
    ("ff02:".data).isPrefixOf (pyLower ev.dst_ip).data = true ∨ ev.src_ip = "::")

/-- Embedding of is_label_allowed: an empty allowlist allows all. -/
def is_label_allowed (cfgn : NetworkMLConfig) (label : String) : Bool :=
  if cfgn.flags.disable_allowlist then true
  else if cfgn.allowlist = [] then true
  else decide (label ∈ cfgn.allowlist)

/-- The volume-attack substring test of the gating layer. -/
def is_volume_attack (label : String) : Bool :=
  containsSub (pyUpper label) "DDOS" || containsSub (pyUpper label) "DOS" ||
    containsSub (pyUpper label) "BRUTE"

/-- The rule-based volume gate of analyze_flow (true = the flow
survives every enabled hard threshold). -/
def volumeGate (cfgn : NetworkMLConfig) (flow : FlowMetrics) : Bool :=
  let duration_ms := fget flow "bidirectional_duration_ms"
  let total_packets := fget flow "bidirectional_packets"
  let total_bytes := fget flow "bidirectional_bytes"
  if duration_ms < cfgn.min_volume_attack_duration_ms then false
  else if total_packets < cfgn.min_volume_attack_packets then false
  else if total_bytes < cfgn.min_volume_attack_bytes then false
  else if 50 ≤ duration_ms then
    (if total_packets / (duration_ms / 1000) < cfgn.ml_min_flow_rate_pps then false
    else if total_bytes / (duration_ms / 1000) < cfgn.ml_min_bytes_per_second then
      false
    else true)
  else true

/-- The body of analyze_flow inside its try block (plus the earlier
loaded and broadcast checks, which cannot raise): errors from the
capabilities propagate as Except.error. -/
def analyze_flow_body (cfgn : NetworkMLConfig) (ops : FlowDetectorOps)
    (loaded : Bool) (ev : FlowEvent) : Except String (Option FlowDetection) :=
  if loaded = false then .ok none
  else if cfgn.flags.disable_broadcast_filter = false ∧ isBroadcastFlow ev = true then
    .ok none
  else
    match ops.mapFeatures ev.metrics with
    | .error e => .error e
    | .ok features =>
        if features.length = 0 then .ok none
        else
          match ops.classify features with
          | .error e => .error e
          | .ok (rawLabel, score) =>
              let label := normalize_label cfgn.flags.label_normalization rawLabel
              if label = cfgn.benign_label ∨
                  pyUpper label ∈ (["UNKNOWN", "BENIGN", ""] : List String) then
                .ok none
              else if cfgn.flags.disable_known_label_check = false ∧
                  cfgn.known_labels ≠ [] ∧ label ∉ cfgn.known_labels then
                .ok none
              else if is_label_allowed cfgn label = false then .ok none
              else if cfgn.flags.disable_gating = false ∧
                  cfgn.flags.strict_filters = true ∧ is_volume_attack label = true ∧
                  volumeGate cfgn ev.metrics = false then
                .ok none
              else if (cfgn.label_thresholds label).getD cfgn.network_ml_threshold ≤
                  score then
                .ok (some ⟨label, score, get_network_ml_severity label score⟩)
              else .ok none

/-- Embedding of analyze_flow: the surrounding except clause turns any
propagated error into no detection. -/
def analyze_flow (cfgn : NetworkMLConfig) (ops : FlowDetectorOps)
    (loaded : Bool) (ev : FlowEvent) : Option FlowDetection :=
  match analyze_flow_body cfgn ops loaded ev with
  | .ok r => r
  | .error _ => none

/-- A stored raw event (RawEvent row), reduced to the fields the claims
need. -/
structure RawEventRow where
  id : ℕ
  event_type : String
deriving DecidableEq

/-- The database state an ingest request touches. -/
structure IngestDB where
  raw_events : List RawEventRow
  detections : List Detection

/-- HTTP outcome of an ingest request. -/
inductive IngestStatus where
  | accepted
  | serverError
deriving DecidableEq

/-- Embedding of ingest_flow_event: store the raw event, run the
detector, apply the dedup/cooldown decision for a detection, commit. -/
def ingest_flow_event (W C : ℚ) (cfgn : NetworkMLConfig) (ops : FlowDetectorOps)
    (loaded : Bool) (db : IngestDB) (ev : FlowEvent) (ts : ℚ) (evId detId : ℕ) :
    IngestStatus × IngestDB :=
  let db1 : IngestDB := { db with raw_events := db.raw_events ++ [⟨evId, "flow"⟩] }
  match analyze_flow cfgn ops loaded ev with
  | none => (.accepted, db1)
  | some det =>
      let cand : FlowCandidate :=
        { ts := ts, label := det.label, score := det.score, severity := det.severity,
          src_ip := ev.src_ip, dst_ip := ev.dst_ip, dst_port := ev.dst_port }
      (.accepted, { db1 with
        detections := applyResolution W C db1.detections cand detId })

/-- Embedding of ingest_auth_event: store the raw event, run the SSH
detector, insert any candidate directly, commit. -/
def ingest_auth_event (cfg : SSHModelCfg) (windowSec : ℚ) (failThreshold : ℕ)
    (st : SSHTrackerState) (db : IngestDB) (line : String) (ts : ℚ)
    (evId detId : ℕ) : IngestStatus × IngestDB × SSHTrackerState :=
  let db1 : IngestDB := { db with raw_events := db.raw_events ++ [⟨evId, "auth"⟩] }
  match analyze_auth_event cfg windowSec failThreshold st line ts with
  | (st2, none) => (.accepted, db1, st2)
  | (st2, some cand) =>
      (.accepted,
        { db1 with detections := ingestAuthDetection db1.detections cand detId },
        st2)

/-- SSH model configuration whose scorer raises on every input. -/
def C8cfg : SSHModelCfg :=
  { loaded := true,
    token2id := fun t =>
      if t = "FAILED_PASSWORD" then some 1
      else if t = "OTHER" then some 0 else none,
    window_size := 10, threshold := 1, netScore := fun _ => Except.error "boom" }

/-- C8 counterexample: a classifier (anomaly scorer) exception during
SSH analysis does not make the detector yield no detection.  With a
scorer that raises on every call, five failed-password lines within the
window still produce an SSH_BRUTE_FORCE candidate on the fifth event,
while the scorer is exercised from the third event on. -/
theorem C8_counterexample :
    (∀ s, C8cfg.netScore s = Except.error "boom") ∧
    ((runAuthLines C8cfg ssh_bruteforce_window_seconds ssh_bruteforce_threshold
        emptyTracker
        [(C7line, 0), (C7line, 10), (C7line, 20), (C7line, 30), (C7line, 40)]).2.map
        Option.isSome) = [false, false, false, false, true] := by
  have hquiet : ∀ s, (sshPredict C8cfg s).2 = false := by
    intro s
    simp [sshPredict, C8cfg]
  have s1 := C7_step C8cfg [] 0 rfl (by decide) hquiet (by simp)
  have s2 := C7_step C8cfg [0] 10 rfl (by decide) hquiet (by
    intro t ht
    rw [List.mem_singleton] at ht
    subst ht
    norm_num)
  have s3 := C7_step C8cfg [0, 10] 20 rfl (by decide) hquiet (by
    intro t ht
    simp only [List.mem_cons, List.mem_singleton, List.not_mem_nil, or_false] at ht
    rcases ht with rfl | rfl <;> norm_num)
  have s4 := C7_step C8cfg [0, 10, 20] 30 rfl (by decide) hquiet (by
    intro t ht
    simp only [List.mem_cons, List.mem_singleton, List.not_mem_nil, or_false] at ht
    rcases ht with rfl | rfl | rfl <;> norm_num)
  have s5 := C7_step C8cfg [0, 10, 20, 30] 40 rfl (by decide) hquiet (by
    intro t ht
    simp only [List.mem_cons, List.mem_singleton, List.not_mem_nil, or_false] at ht
    rcases ht with rfl | rfl | rfl | rfl <;> norm_num)
  simp only [List.nil_append, List.cons_append, List.append_nil, List.length_nil,
    List.length_cons, List.singleton_append] at s1 s2 s3 s4 s5
  norm_num at s1 s2 s3 s4 s5
  refine ⟨fun s => rfl, ?_⟩
  rw [← C7state_nil C8cfg]
  simp only [runAuthLines, s1, s2, s3, s4, s5]
  simp

/-- C8 amended: a feature-mapper or classifier error on the flow path
yields no detection, the request is accepted, the raw event stays
persisted and no detection row changes; an auth line with no extractable
source IP yields no detection with the raw event persisted; an
always-raising SSH scorer never fails the auth request or drops its raw
event (though the threshold path may still emit a detection). -/
theorem C8_detector_error_handling (W C : ℚ) (cfgn : NetworkMLConfig)
    (ops : FlowDetectorOps) (loaded : Bool) (db : IngestDB) (ev : FlowEvent)
    (ts : ℚ) (evId detId : ℕ) (cfg : SSHModelCfg) (st : SSHTrackerState)
    (line : String) :
    (∀ e, ops.mapFeatures ev.metrics = Except.error e →
      analyze_flow cfgn ops loaded ev = none ∧
      (ingest_flow_event W C cfgn ops loaded db ev ts evId detId).1 =
        IngestStatus.accepted ∧
      (ingest_flow_event W C cfgn ops loaded db ev ts evId detId).2.raw_events =
        db.raw_events ++ [⟨evId, "flow"⟩] ∧
      (ingest_flow_event W C cfgn ops loaded db ev ts evId detId).2.detections =
        db.detections) ∧
    (∀ feats e, ops.mapFeatures ev.metrics = Except.ok feats →
      ops.classify feats = Except.error e →
      analyze_flow cfgn ops loaded ev = none ∧
      (ingest_flow_event W C cfgn ops loaded db ev ts evId detId).1 =
        IngestStatus.accepted ∧
      (ingest_flow_event W C cfgn ops loaded db ev ts evId detId).2.raw_events =
        db.raw_events ++ [⟨evId, "flow"⟩] ∧
      (ingest_flow_event W C cfgn ops loaded db ev ts evId detId).2.detections =
        db.detections) ∧
    (extractIP line = none →
      (analyze_auth_event cfg ssh_bruteforce_window_seconds
        ssh_bruteforce_threshold st line ts).2 = none ∧
      (ingest_auth_event cfg ssh_bruteforce_window_seconds
        ssh_bruteforce_threshold st db line ts evId detId).1 =
        IngestStatus.accepted ∧
      (ingest_auth_event cfg ssh_bruteforce_window_seconds
        ssh_bruteforce_threshold st db line ts evId detId).2.1.raw_events =
        db.raw_events ++ [⟨evId, "auth"⟩]) ∧
    ((∀ s, ∃ e, cfg.netScore s = Except.error e) →
      (ingest_auth_event cfg ssh_bruteforce_window_seconds
        ssh_bruteforce_threshold st db line ts evId detId).1 =
        IngestStatus.accepted ∧
      (ingest_auth_event cfg ssh_bruteforce_window_seconds
        ssh_bruteforce_threshold st db line ts evId detId).2.1.raw_events =
        db.raw_events ++ [⟨evId, "auth"⟩]) := by
  have hflow : ∀ e, ops.mapFeatures ev.metrics = Except.error e →
      analyze_flow cfgn ops loaded ev = none := by
    intro e he
    unfold analyze_flow analyze_flow_body
    by_cases h1 : loaded = false
    · rw [if_pos h1]
    · rw [if_neg h1]
      by_cases h2 : cfgn.flags.disable_broadcast_filter = false ∧
        isBroadcastFlow ev = true
      · rw [if_pos h2]
      · rw [if_neg h2, he]
  have hflow2 : ∀ feats e, ops.mapFeatures ev.metrics = Except.ok feats →
      ops.classify feats = Except.error e →
      analyze_flow cfgn ops loaded ev = none := by
    intro feats e hok he
    unfold analyze_flow analyze_flow_body
    by_cases h1 : loaded = false
    · rw [if_pos h1]
    · rw [if_neg h1]
      by_cases h2 : cfgn.flags.disable_broadcast_filter = false ∧
        isBroadcastFlow ev = true
      · rw [if_pos h2]
      · rw [if_neg h2]
        simp only [hok]
        by_cases h3 : feats.length = 0
        · rw [if_pos h3]
        · rw [if_neg h3]
          simp only [he]
  have hauthNone : extractIP line = none →
      (analyze_auth_event cfg ssh_bruteforce_window_seconds
        ssh_bruteforce_threshold st line ts) = (st, none) := by
    intro hip
    unfold analyze_auth_event parse_auth_line
    rw [hip]
  refine ⟨?_, ?_, ?_, ?_⟩
  · intro e he
    refine ⟨hflow e he, ?_, ?_, ?_⟩ <;>
      simp [ingest_flow_event, hflow e he]
  · intro feats e hok he
    refine ⟨hflow2 feats e hok he, ?_, ?_, ?_⟩ <;>
      simp [ingest_flow_event, hflow2 feats e hok he]
  · intro hip
    refine ⟨by rw [hauthNone hip], ?_, ?_⟩ <;>
      simp [ingest_auth_event, hauthNone hip]
  · intro _
    unfold ingest_auth_event
    rcases hres : analyze_auth_event cfg ssh_bruteforce_window_seconds
      ssh_bruteforce_threshold st line ts with ⟨st2, out⟩
    cases out <;> simp

/-- Witness for C8_detector_error_handling: a concretely erroring
feature mapper leaves the raw event persisted with no detection. -/
theorem C8_detector_error_handling_witness :
    analyze_flow
        ⟨⟨false, true, false, true, false, true⟩, "Normal Traffic", [], [],
          fun _ => none, 3/5, 100, 10, 1000, 100, 1000⟩
        ⟨fun _ => Except.error "mapfail", fun _ => Except.ok ("DoS", 1)⟩ true
        ⟨"1.2.3.4", "5.6.7.8", 80, "TCP", fun _ => none⟩ = none ∧
      (ingest_flow_event 300 3600
        ⟨⟨false, true, false, true, false, true⟩, "Normal Traffic", [], [],
          fun _ => none, 3/5, 100, 10, 1000, 100, 1000⟩
        ⟨fun _ => Except.error "mapfail", fun _ => Except.ok ("DoS", 1)⟩ true
        ⟨[], []⟩ ⟨"1.2.3.4", "5.6.7.8", 80, "TCP", fun _ => none⟩ 0 1 2).1 =
        IngestStatus.accepted ∧
      (ingest_flow_event 300 3600
        ⟨⟨false, true, false, true, false, true⟩, "Normal Traffic", [], [],
          fun _ => none, 3/5, 100, 10, 1000, 100, 1000⟩
        ⟨fun _ => Except.error "mapfail", fun _ => Except.ok ("DoS", 1)⟩ true
        ⟨[], []⟩ ⟨"1.2.3.4", "5.6.7.8", 80, "TCP", fun _ => none⟩ 0 1 2).2.raw_events =
        ([] : List RawEventRow) ++ [⟨1, "flow"⟩] ∧
      (ingest_flow_event 300 3600
        ⟨⟨false, true, false, true, false, true⟩, "Normal Traffic", [], [],
          fun _ => none, 3/5, 100, 10, 1000, 100, 1000⟩
        ⟨fun _ => Except.error "mapfail", fun _ => Except.ok ("DoS", 1)⟩ true
        ⟨[], []⟩ ⟨"1.2.3.4", "5.6.7.8", 80, "TCP", fun _ => none⟩ 0 1 2).2.detections =
        ([] : List Detection) :=
  (C8_detector_error_handling 300 3600
    ⟨⟨false, true, false, true, false, true⟩, "Normal Traffic", [], [],
      fun _ => none, 3/5, 100, 10, 1000, 100, 1000⟩
    ⟨fun _ => Except.error "mapfail", fun _ => Except.ok ("DoS", 1)⟩ true
    ⟨[], []⟩ ⟨"1.2.3.4", "5.6.7.8", 80, "TCP", fun _ => none⟩ 0 1 2
    ⟨true, fun _ => none, 10, 1, fun _ => Except.ok 0⟩
    emptyTracker "x").1 "mapfail" rfl

/- ==================================================================
   notifications/types.py + notifications/bus.py
   ================================================================== -/

/-- SEVERITY_ORDER of notifications/types.py. -/
def SEVERITY_ORDER (s : String) : Option ℕ :=
  if s = "INFO" then some 0
  else if s = "LOW" then some 1
  else if s = "MEDIUM" then some 2
  else if s = "HIGH" then some 3
  else if s = "CRITICAL" then some 4
  else none

/-- Embedding of severity_meets_threshold: unknown severities default to
0, unknown minima to 3 (HIGH). -/
def severity_meets_threshold (severity min_severity : String) : Bool :=
  decide ((SEVERITY_ORDER (pyUpper min_severity)).getD 3 ≤
    (SEVERITY_ORDER (pyUpper severity)).getD 0)

/-- The alert fields _compute_alert_hash reads. -/
structure DetectionAlert where
  label : String
  severity : String
  device_id : String
  src_ip : String
  dst_ip : String
  dst_port : ℤ
  model_name : String
deriving DecidableEq

/-- Embedding of _compute_alert_hash: the pipe-joined key fields; the
md5 digest is modelled by the key string itself (collisions of md5 are
outside the embedding). -/
def alertHash (a : DetectionAlert) : String :=
  a.label ++ "|" ++ a.severity ++ "|" ++ a.device_id ++ "|" ++ a.src_ip ++ "|" ++
    a.dst_ip ++ "|" ++ toString a.dst_port ++ "|" ++ a.model_name

/-- The mutable NotificationBus state: the dedup cache (hash to expiry)
and the sliding deque of send timestamps (oldest first). -/
structure BusState where
  dedupCache : List (String × ℚ)
  sendTimestamps : List ℚ

/-- The bus before any alert. -/
def emptyBus : BusState := { dedupCache := [], sendTimestamps := [] }

/-- The fate of one processed alert. -/
inductive AlertOutcome where
  | severityGated
  | deduped
  | rateLimited
  | sent
  | failed
deriving DecidableEq

/-- _cleanup_dedup_cache: drop entries whose expiry is at or before
now. -/
def cleanup_dedup_cache (now : ℚ) (cache : List (String × ℚ)) :
    List (String × ℚ) :=
  cache.filter (fun e => decide (now < e.2))

/-- _cleanup_rate_window: pop timestamps strictly older than now - 60
from the left of the deque. -/
def cleanup_rate_window (now : ℚ) (tss : List ℚ) : List ℚ :=
  tss.dropWhile (fun t => decide (t < now - 60))

/-- Embedding of NotificationBus._process_alert: severity gate, dedup
check, rate-limit check, delivery (abstracted as the success of
_send_with_retry), then recording.  The cleanups mutate the state
exactly where the Python methods do. -/
def process_alert (minSev : String) (rateLimit : ℕ) (dedupWindow : ℚ)
    (deliver : DetectionAlert → Bool) (st : BusState) (a : DetectionAlert)
    (now : ℚ) : BusState × AlertOutcome :=
  if severity_meets_threshold a.severity minSev = false then (st, .severityGated)
  else if ((cleanup_dedup_cache now st.dedupCache).lookup (alertHash a)).isSome then
    ({ st with dedupCache := cleanup_dedup_cache now st.dedupCache }, .deduped)
  else if rateLimit ≤ (cleanup_rate_window now st.sendTimestamps).length then
    ({ dedupCache := cleanup_dedup_cache now st.dedupCache,
       sendTimestamps := cleanup_rate_window now st.sendTimestamps }, .rateLimited)
  else if deliver a then
    ({ dedupCache := cleanup_dedup_cache now st.dedupCache ++
         [(alertHash a, now + dedupWindow)],
       sendTimestamps := cleanup_rate_window now st.sendTimestamps ++ [now] }, .sent)
  else
    ({ dedupCache := cleanup_dedup_cache now st.dedupCache,
       sendTimestamps := cleanup_rate_window now st.sendTimestamps }, .failed)

/-- The sequential worker loop over a list of (alert, dequeue-time)
pairs. -/
def runBus (minSev : String) (rateLimit : ℕ) (dedupWindow : ℚ)
    (deliver : DetectionAlert → Bool) :
    BusState → List (DetectionAlert × ℚ) → BusState × List AlertOutcome
  | st, [] => (st, [])
  | st, (a, now) :: rest =>
      match process_alert minSev rateLimit dedupWindow deliver st a now with
      | (st1, out) =>
          match runBus minSev rateLimit dedupWindow deliver st1 rest with
          | (st2, outs) => (st2, out :: outs)

/-- The timestamps of the delivered alerts of a run. -/
def sentTimesAux : List (DetectionAlert × ℚ) → List AlertOutcome → List ℚ
  | [], _ => []
  | _, [] => []
  | (_, t) :: evs, o :: outs =>
      (if o = AlertOutcome.sent then [t] else []) ++ sentTimesAux evs outs

/-- The number of sends inside the trailing 60 second window ending at
t. -/
def windowCount (t : ℚ) (H : List ℚ) : ℕ :=
  H.countP (fun s => decide (t - 60 ≤ s ∧ s ≤ t))

/-- dropWhile is a drop whose dropped prefix satisfies the predicate. -/
theorem dropWhile_eq_drop {α : Type} (p : α → Bool) (l : List α) :
    ∃ j, j ≤ l.length ∧ l.dropWhile p = l.drop j ∧
      ∀ x ∈ l.take j, p x = true := by
  induction l with
  | nil => exact ⟨0, by simp⟩
  | cons c cs ih =>
      by_cases hc : p c
      · obtain ⟨j, hj, hdrop, htake⟩ := ih
        refine ⟨j + 1, by simpa using hj, ?_, ?_⟩
        · rw [List.dropWhile_cons_of_pos hc, List.drop_succ_cons, hdrop]
        · intro x hx
          rw [List.take_succ_cons] at hx
          rcases List.mem_cons.mp hx with rfl | hx2
          · exact hc
          · exact htake x hx2
      · refine ⟨0, by simp, ?_, by simp⟩
        rw [List.dropWhile_cons_of_neg (by simpa using hc), List.drop_zero]

/-- dropWhile keeps a list whose elements all fail the predicate. -/
theorem dropWhile_eq_self_of_false {α : Type} {p : α → Bool} {l : List α}
    (h : ∀ x ∈ l, p x = false) : l.dropWhile p = l := by
  cases l with
  | nil => rfl
  | cons c cs =>
      apply List.dropWhile_cons_of_neg
      simp [h c (List.mem_cons_self _ _)]

/-- On a nondecreasing list, dropping the prefix below a cutoff keeps
exactly the elements at or above it. -/
theorem length_dropWhile_sorted (c : ℚ) (l : List ℚ)
    (hs : List.Pairwise (· ≤ ·) l) :
    (l.dropWhile (fun t => decide (t < c))).length =
      l.countP (fun t => decide (c ≤ t)) := by
  induction l with
  | nil => rfl
  | cons x xs ih =>
      rw [List.pairwise_cons] at hs
      by_cases hx : x < c
      · rw [List.dropWhile_cons_of_pos (by simpa using hx),
          List.countP_cons_of_neg _ _ (by simpa using not_le.mpr hx)]
        exact ih hs.2
      · rw [List.dropWhile_cons_of_neg (by simpa using hx),
          List.countP_cons_of_pos _ _ (by simpa using not_lt.mp hx)]
        have hall : xs.countP (fun t => decide (c ≤ t)) = xs.length := by
          rw [List.countP_eq_length]
          intro y hy
          have := hs.1 y hy
          simp only [decide_eq_true_eq]
          have := not_lt.mp hx
          linarith
        simp [hall]

/-- When the retained trailing-window send count has reached the limit,
the alert is dropped with no delivery attempt: the outcome is never
sent, and the result does not depend on the delivery capability. -/
theorem process_alert_rate_drop (minSev : String) (n : ℕ) (W : ℚ)
    (deliver : DetectionAlert → Bool) (st : BusState) (a : DetectionAlert)
    (now : ℚ)
    (hsorted : List.Pairwise (· ≤ ·) st.sendTimestamps)
    (hcount : n ≤ st.sendTimestamps.countP (fun t => decide (now - 60 ≤ t))) :
    (process_alert minSev n W deliver st a now).2 ≠ AlertOutcome.sent ∧
    (∀ d1 d2 : DetectionAlert → Bool,
      process_alert minSev n W d1 st a now = process_alert minSev n W d2 st a now) := by
  have hlen : n ≤ (cleanup_rate_window now st.sendTimestamps).length := by
    rw [cleanup_rate_window, length_dropWhile_sorted _ _ hsorted]
    exact hcount
  constructor
  · unfold process_alert
    by_cases h1 : severity_meets_threshold a.severity minSev = false
    · simp [h1]
    · rw [if_neg h1]
      by_cases h2 : ((cleanup_dedup_cache now st.dedupCache).lookup
          (alertHash a)).isSome = true
      · simp [h2]
      · rw [if_neg h2, if_pos hlen]
        simp
  · intro d1 d2
    unfold process_alert
    by_cases h1 : severity_meets_threshold a.severity minSev = false
    · rw [if_pos h1, if_pos h1]
    · rw [if_neg h1, if_neg h1]
      by_cases h2 : ((cleanup_dedup_cache now st.dedupCache).lookup
          (alertHash a)).isSome = true
      · rw [if_pos h2, if_pos h2]
      · rw [if_neg h2, if_neg h2, if_pos hlen, if_pos hlen]

/-- A lookup over entries whose keys all differ from the key misses. -/
theorem lookup_eq_none_of_ne {k : String} {l : List (String × ℚ)}
    (h : ∀ p ∈ l, p.1 ≠ k) : l.lookup k = none := by
  induction l with
  | nil => rfl
  | cons p rest ih =>
      rcases p with ⟨k2, v⟩
      have hne : (k == k2) = false :=
        beq_eq_false_iff_ne.mpr (Ne.symm (h (k2, v) (List.mem_cons_self _ _)))
      simp only [List.lookup, hne]
      exact ih (fun q hq => h q (List.mem_cons_of_mem _ hq))

/-- Scenario invariant for the burst: alerts that all pass the severity
gate, have pairwise distinct hashes unseen in the cache, and arrive
within one 60 s window of every retained send, are delivered until the
window fills: the number of sends is min(#alerts, limit - retained). -/
theorem runBus_scenario (minSev : String) (n : ℕ) (W : ℚ) :
    ∀ (evs : List (DetectionAlert × ℚ)) (st : BusState) (T : ℚ),
    (∀ e ∈ evs, severity_meets_threshold e.1.severity minSev = true) →
    List.Pairwise (fun e1 e2 => alertHash e1.1 ≠ alertHash e2.1) evs →
    (∀ e ∈ evs, ∀ c ∈ st.dedupCache, c.1 ≠ alertHash e.1) →
    (∀ e ∈ evs, T ≤ e.2 ∧ e.2 ≤ T + 60) →
    (∀ s ∈ st.sendTimestamps, T ≤ s) →
    ((runBus minSev n W (fun _ => true) st evs).2.countP
        (fun o => decide (o = AlertOutcome.sent))) =
      min evs.length (n - st.sendTimestamps.length) := by
  intro evs
  induction evs with
  | nil =>
      intro st T _ _ _ _ _
      simp [runBus]
  | cons e rest ih =>
      rcases e with ⟨a, now⟩
      intro st T hsev hhash hcache htime hst
      have hsev_a : severity_meets_threshold a.severity minSev = true :=
        hsev _ (List.mem_cons_self _ _)
      have htime_a := htime _ (List.mem_cons_self _ _)
      have hlook : ((cleanup_dedup_cache now st.dedupCache).lookup
          (alertHash a)) = none := by
        apply lookup_eq_none_of_ne
        intro p hp
        exact hcache _ (List.mem_cons_self _ _) p (List.mem_of_mem_filter hp)
      have hts1 : cleanup_rate_window now st.sendTimestamps = st.sendTimestamps := by
        apply dropWhile_eq_self_of_false
        intro s hsmem
        have h1 := hst s hsmem
        simp only [decide_eq_false_iff_not, not_lt]
        linarith [htime_a.2]
      rw [List.pairwise_cons] at hhash
      have hsev2 : ∀ e ∈ rest, severity_meets_threshold e.1.severity minSev = true :=
        fun e he => hsev e (List.mem_cons_of_mem _ he)
      have htime2 : ∀ e ∈ rest, T ≤ e.2 ∧ e.2 ≤ T + 60 :=
        fun e he => htime e (List.mem_cons_of_mem _ he)
      by_cases hn : n ≤ st.sendTimestamps.length
      · have hstep : process_alert minSev n W (fun _ => true) st a now =
            ({ dedupCache := cleanup_dedup_cache now st.dedupCache,
               sendTimestamps := cleanup_rate_window now st.sendTimestamps },
             AlertOutcome.rateLimited) := by
          unfold process_alert
          rw [if_neg (by simp [hsev_a]), if_neg (by simp [hlook]),
            if_pos (by rw [hts1]; exact hn)]
        have hrec0 := ih
          { dedupCache := cleanup_dedup_cache now st.dedupCache,
            sendTimestamps := cleanup_rate_window now st.sendTimestamps } T
          hsev2 hhash.2
          (fun e he c hc => hcache e (List.mem_cons_of_mem _ he) c
            (List.mem_of_mem_filter hc))
          htime2
          (by
            rw [hts1]
            exact hst)
        have hrec : ((runBus minSev n W (fun _ => true)
            { dedupCache := cleanup_dedup_cache now st.dedupCache,
              sendTimestamps := cleanup_rate_window now st.sendTimestamps }
            rest).2.countP (fun o => decide (o = AlertOutcome.sent))) =
            min rest.length (n - st.sendTimestamps.length) := by
          simpa [hts1] using hrec0
        rw [runBus, hstep]
        rw [List.countP_cons_of_neg (fun o => decide (o = AlertOutcome.sent)) _
          (by decide)]
        rw [hrec]
        simp only [List.length_cons]
        omega
      · have hstep : process_alert minSev n W (fun _ => true) st a now =
            ({ dedupCache := cleanup_dedup_cache now st.dedupCache ++
                 [(alertHash a, now + W)],
               sendTimestamps := cleanup_rate_window now st.sendTimestamps ++
                 [now] }, AlertOutcome.sent) := by
          unfold process_alert
          rw [if_neg (by simp [hsev_a]), if_neg (by simp [hlook]),
            if_neg (by rw [hts1]; exact hn), if_pos rfl]
        have hrec0 := ih
          { dedupCache := cleanup_dedup_cache now st.dedupCache ++
              [(alertHash a, now + W)],
            sendTimestamps := cleanup_rate_window now st.sendTimestamps ++ [now] } T
          hsev2 hhash.2
          (fun e he c hc => by
            rcases List.mem_append.mp hc with h1 | h1
            · exact hcache e (List.mem_cons_of_mem _ he) c
                (List.mem_of_mem_filter h1)
            · rw [List.mem_singleton] at h1
              subst h1
              exact hhash.1 e he)
          htime2
          (by
            intro s hsmem
            rw [hts1] at hsmem
            rcases List.mem_append.mp hsmem with h1 | h1
            · exact hst s h1
            · rw [List.mem_singleton] at h1
              subst h1
              exact htime_a.1)
        have hrec : ((runBus minSev n W (fun _ => true)
            { dedupCache := cleanup_dedup_cache now st.dedupCache ++
                [(alertHash a, now + W)],
              sendTimestamps := cleanup_rate_window now st.sendTimestamps ++ [now] }
            rest).2.countP (fun o => decide (o = AlertOutcome.sent))) =
            min rest.length (n - (st.sendTimestamps.length + 1)) := by
          simpa [hts1] using hrec0
        rw [runBus, hstep]
        rw [List.countP_cons_of_pos (fun o => decide (o = AlertOutcome.sent)) _
          (by decide)]
        rw [hrec]
        simp only [List.length_cons]
        omega

/-- windowCount distributes over list append. -/
theorem windowCount_append (t : ℚ) (A B : List ℚ) :
    windowCount t (A ++ B) = windowCount t A + windowCount t B := by
  simp [windowCount, List.countP_append]

/-- The rate-window cleanup splits the deque into a dropped prefix,
every element of which is strictly older than now - 60, and the kept
suffix. -/
theorem cleanup_split (now : ℚ) (ts : List ℚ) :
    ∃ j, j ≤ ts.length ∧ cleanup_rate_window now ts = ts.drop j ∧
      ∀ x ∈ ts.take j, x < now - 60 := by
  obtain ⟨j, hj, hdrop, htake⟩ :=
    dropWhile_eq_drop (fun t => decide (t < now - 60)) ts
  exact ⟨j, hj, hdrop, fun x hx => by simpa using htake x hx⟩

/-- Sliding-window invariant of the worker loop: over any run whose
dequeue times are nondecreasing, if every already-dropped timestamp is
outside the 60 s window of every coming event and the retained history
never exceeds the limit in any trailing window, then the full send
history of the run never exceeds the limit in any trailing window. -/
theorem runBus_window_inv (minSev : String) (n : ℕ) (W : ℚ)
    (deliver : DetectionAlert → Bool) :
    ∀ (evs : List (DetectionAlert × ℚ)) (st : BusState) (D : List ℚ),
    List.Pairwise (· ≤ ·) (evs.map Prod.snd) →
    (∀ d ∈ D, ∀ e ∈ evs, d < e.2 - 60) →
    (∀ t, windowCount t (D ++ st.sendTimestamps) ≤ n) →
    ∀ t, windowCount t ((D ++ st.sendTimestamps) ++
      sentTimesAux evs (runBus minSev n W deliver st evs).2) ≤ n := by
  intro evs
  induction evs with
  | nil =>
      intro st D h1 h4 h5 t
      simp only [runBus, sentTimesAux, List.append_nil]
      exact h5 t
  | cons ev rest ih =>
      obtain ⟨a, now⟩ := ev
      intro st D h1 h4 h5 t
      simp only [List.map_cons] at h1
      have h1c := List.pairwise_cons.mp h1
      have h1rest : List.Pairwise (· ≤ ·) (rest.map Prod.snd) := h1c.2
      have hnow : ∀ e ∈ rest, now ≤ e.2 :=
        fun e he => h1c.1 e.2 (List.mem_map_of_mem Prod.snd he)
      have h4rest : ∀ d ∈ D, ∀ e ∈ rest, d < e.2 - 60 :=
        fun d hd e he => h4 d hd e (List.mem_cons_of_mem _ he)
      obtain ⟨j, hj, hdw, htk⟩ := cleanup_split now st.sendTimestamps
      by_cases hg : severity_meets_threshold a.severity minSev = false
      · have hstep : process_alert minSev n W deliver st a now =
            (st, AlertOutcome.severityGated) := by
          rw [process_alert, if_pos hg]
        rw [runBus, hstep]
        simp only [sentTimesAux]
        rw [if_neg (by decide : ¬(AlertOutcome.severityGated = AlertOutcome.sent))]
        rw [List.nil_append]
        exact ih st D h1rest h4rest h5 t
      · by_cases hdup : ((cleanup_dedup_cache now st.dedupCache).lookup
            (alertHash a)).isSome = true
        · have hstep : process_alert minSev n W deliver st a now =
              ({ st with dedupCache := cleanup_dedup_cache now st.dedupCache },
                AlertOutcome.deduped) := by
            rw [process_alert, if_neg hg, if_pos hdup]
          rw [runBus, hstep]
          simp only [sentTimesAux]
          rw [if_neg (by decide : ¬(AlertOutcome.deduped = AlertOutcome.sent))]
          rw [List.nil_append]
          exact ih { st with dedupCache := cleanup_dedup_cache now st.dedupCache }
            D h1rest h4rest h5 t
        · have h4drop : ∀ d ∈ D ++ st.sendTimestamps.take j, ∀ e ∈ rest,
              d < e.2 - 60 := by
            intro d hd e he
            rcases List.mem_append.mp hd with h | h
            · exact h4 d h e (List.mem_cons_of_mem _ he)
            · have hlt := htk d h
              have hle := hnow e he
              linarith
          have hts : windowCount t st.sendTimestamps =
              windowCount t (st.sendTimestamps.take j) +
                windowCount t (st.sendTimestamps.drop j) := by
            rw [← windowCount_append, List.take_append_drop]
          by_cases hr : n ≤ (cleanup_rate_window now st.sendTimestamps).length
          · have hstep : process_alert minSev n W deliver st a now =
                ({ dedupCache := cleanup_dedup_cache now st.dedupCache,
                   sendTimestamps := cleanup_rate_window now st.sendTimestamps },
                  AlertOutcome.rateLimited) := by
              rw [process_alert, if_neg hg, if_neg hdup, if_pos hr]
            rw [runBus, hstep]
            simp only [sentTimesAux]
            rw [if_neg (by decide : ¬(AlertOutcome.rateLimited = AlertOutcome.sent))]
            rw [List.nil_append]
            have h5keep : ∀ t', windowCount t' ((D ++ st.sendTimestamps.take j) ++
                cleanup_rate_window now st.sendTimestamps) ≤ n := by
              intro t'
              rw [hdw, List.append_assoc, List.take_append_drop]
              exact h5 t'
            have hmain := ih
              { dedupCache := cleanup_dedup_cache now st.dedupCache,
                sendTimestamps := cleanup_rate_window now st.sendTimestamps }
              (D ++ st.sendTimestamps.take j) h1rest h4drop h5keep t
            simp only [windowCount_append] at hmain ⊢
            have hcw : windowCount t (cleanup_rate_window now st.sendTimestamps) =
                windowCount t (st.sendTimestamps.drop j) := by rw [hdw]
            omega
          · by_cases hdel : deliver a = true
            · have hstep : process_alert minSev n W deliver st a now =
                  ({ dedupCache := cleanup_dedup_cache now st.dedupCache ++
                       [(alertHash a, now + W)],
                     sendTimestamps :=
                       cleanup_rate_window now st.sendTimestamps ++ [now] },
                    AlertOutcome.sent) := by
                rw [process_alert, if_neg hg, if_neg hdup, if_neg hr, if_pos hdel]
              rw [runBus, hstep]
              simp only [sentTimesAux]
              rw [if_true]
              have h5send : ∀ t', windowCount t' ((D ++ st.sendTimestamps.take j) ++
                  (cleanup_rate_window now st.sendTimestamps ++ [now])) ≤ n := by
                intro t'
                simp only [windowCount_append]
                rw [hdw]
                have hts' : windowCount t' st.sendTimestamps =
                    windowCount t' (st.sendTimestamps.take j) +
                      windowCount t' (st.sendTimestamps.drop j) := by
                  rw [← windowCount_append, List.take_append_drop]
                by_cases hin : t' - 60 ≤ now ∧ now ≤ t'
                · have hD0 : windowCount t' D = 0 := by
                    rw [windowCount, List.countP_eq_zero]
                    intro d hd
                    have hlt : d < now - 60 :=
                      h4 d hd (a, now) (List.mem_cons_self _ _)
                    simp only [decide_eq_true_eq]
                    intro hc
                    have h60 := hin.2
                    have := hc.1
                    linarith
                  have hT0 : windowCount t' (st.sendTimestamps.take j) = 0 := by
                    rw [windowCount, List.countP_eq_zero]
                    intro d hd
                    have hlt : d < now - 60 := htk d hd
                    simp only [decide_eq_true_eq]
                    intro hc
                    have h60 := hin.2
                    have := hc.1
                    linarith
                  have hDrop : windowCount t' (st.sendTimestamps.drop j) ≤
                      (st.sendTimestamps.drop j).length :=
                    List.countP_le_length _
                  have hlen : (st.sendTimestamps.drop j).length < n := by
                    rw [← hdw]
                    exact Nat.lt_of_not_le hr
                  have hN1 : windowCount t' [now] ≤ 1 := List.countP_le_length _
                  omega
                · have hN0 : windowCount t' [now] = 0 := by
                    rw [windowCount, List.countP_eq_zero]
                    intro x hx
                    rw [List.mem_singleton] at hx
                    subst hx
                    simpa using hin
                  have h5t := h5 t'
                  simp only [windowCount_append] at h5t
                  omega
              have hmain := ih
                { dedupCache := cleanup_dedup_cache now st.dedupCache ++
                    [(alertHash a, now + W)],
                  sendTimestamps :=
                    cleanup_rate_window now st.sendTimestamps ++ [now] }
                (D ++ st.sendTimestamps.take j) h1rest h4drop h5send t
              simp only [windowCount_append] at hmain ⊢
              have hcw : windowCount t (cleanup_rate_window now st.sendTimestamps) =
                  windowCount t (st.sendTimestamps.drop j) := by rw [hdw]
              omega
            · have hstep : process_alert minSev n W deliver st a now =
                  ({ dedupCache := cleanup_dedup_cache now st.dedupCache,
                     sendTimestamps := cleanup_rate_window now st.sendTimestamps },
                    AlertOutcome.failed) := by
                rw [process_alert, if_neg hg, if_neg hdup, if_neg hr, if_neg hdel]
              rw [runBus, hstep]
              simp only [sentTimesAux]
              rw [if_neg (by decide : ¬(AlertOutcome.failed = AlertOutcome.sent))]
              rw [List.nil_append]
              have h5keep : ∀ t', windowCount t' ((D ++ st.sendTimestamps.take j) ++
                  cleanup_rate_window now st.sendTimestamps) ≤ n := by
                intro t'
                rw [hdw, List.append_assoc, List.take_append_drop]
                exact h5 t'
              have hmain := ih
                { dedupCache := cleanup_dedup_cache now st.dedupCache,
                  sendTimestamps := cleanup_rate_window now st.sendTimestamps }
                (D ++ st.sendTimestamps.take j) h1rest h4drop h5keep t
              simp only [windowCount_append] at hmain ⊢
              have hcw : windowCount t (cleanup_rate_window now st.sendTimestamps) =
                  windowCount t (st.sendTimestamps.drop j) := by rw [hdw]
              omega

/-- C9: whenever the worker dequeues an alert while the trailing-60s
send count has already reached the configured rate limit, the alert is
dropped with no delivery attempt (the outcome is never sent and the
result is independent of the delivery capability); for a burst of
2n alerts dequeued within one 60 s window that all pass the severity
gate and the dedup check and whose deliveries all succeed, starting
from a fresh bus exactly n are delivered; and over any run with
nondecreasing dequeue times from a fresh bus, the number of sends in
the trailing 60 s window ending at any instant never exceeds the rate
limit n. -/
theorem C9_rate_limit :
    (∀ (minSev : String) (n : ℕ) (W : ℚ) (deliver : DetectionAlert → Bool)
       (st : BusState) (a : DetectionAlert) (now : ℚ),
       List.Pairwise (· ≤ ·) st.sendTimestamps →
       n ≤ st.sendTimestamps.countP (fun s => decide (now - 60 ≤ s)) →
       (process_alert minSev n W deliver st a now).2 ≠ AlertOutcome.sent ∧
       ∀ d1 d2 : DetectionAlert → Bool,
         process_alert minSev n W d1 st a now =
           process_alert minSev n W d2 st a now) ∧
    (∀ (minSev : String) (n : ℕ) (W T : ℚ)
       (evs : List (DetectionAlert × ℚ)),
       evs.length = 2 * n →
       (∀ e ∈ evs, severity_meets_threshold e.1.severity minSev = true) →
       List.Pairwise (fun e1 e2 => alertHash e1.1 ≠ alertHash e2.1) evs →
       (∀ e ∈ evs, T ≤ e.2 ∧ e.2 ≤ T + 60) →
       ((runBus minSev n W (fun _ => true) emptyBus evs).2.countP
           (fun o => decide (o = AlertOutcome.sent))) = n) ∧
    (∀ (minSev : String) (n : ℕ) (W : ℚ) (deliver : DetectionAlert → Bool)
       (evs : List (DetectionAlert × ℚ)) (t : ℚ),
       List.Pairwise (· ≤ ·) (evs.map Prod.snd) →
       windowCount t
         (sentTimesAux evs (runBus minSev n W deliver emptyBus evs).2) ≤ n) := by
  refine ⟨?_, ?_, ?_⟩
  · intro minSev n W deliver st a now hs hc
    exact process_alert_rate_drop minSev n W deliver st a now hs hc
  · intro minSev n W T evs hlen hsev hhash htime
    have h := runBus_scenario minSev n W evs emptyBus T hsev hhash
      (by intro e he c hc; simp [emptyBus] at hc)
      htime
      (by intro s hs; simp [emptyBus] at hs)
    rw [h, hlen]
    simp only [emptyBus, List.length_nil, Nat.sub_zero]
    omega
  · intro minSev n W deliver evs t hmono
    have h := runBus_window_inv minSev n W deliver evs emptyBus []
      hmono
      (by intro d hd; simp at hd)
      (by intro t'; simp [emptyBus, windowCount])
      t
    simpa [emptyBus] using h

/-- Witness for C9: on a fresh bus with rate limit 1, two severity-HIGH
alerts with distinct hashes dequeued 10 s apart yield exactly one
send. -/
theorem C9_rate_limit_witness :
    ((runBus "LOW" 1 300 (fun _ => true) emptyBus
        [(DetectionAlert.mk "dos" "HIGH" "d" "1.1.1.1" "2.2.2.2" 80 "network_rf",
          (0 : ℚ)),
         (DetectionAlert.mk "scan" "HIGH" "d" "1.1.1.1" "2.2.2.2" 80 "network_rf",
          (10 : ℚ))]).2.countP
      (fun o => decide (o = AlertOutcome.sent))) = 1 :=
  C9_rate_limit.2.1 "LOW" 1 300 0
    [(DetectionAlert.mk "dos" "HIGH" "d" "1.1.1.1" "2.2.2.2" 80 "network_rf",
      (0 : ℚ)),
     (DetectionAlert.mk "scan" "HIGH" "d" "1.1.1.1" "2.2.2.2" 80 "network_rf",
      (10 : ℚ))]
    (by decide)
    (by decide)
    (by decide)
    (by
      intro e he
      simp only [List.mem_cons, List.not_mem_nil, or_false] at he
      rcases he with rfl | rfl <;> constructor <;> norm_num)
